import Mathlib

/-!
# log-go: a shallow embedding of `logger.go`

The package keeps one global `config` record and writes rendered messages to
`config.output`.  The embedding passes that record explicitly.  Go strings and
byte slices are written as lists of characters; every text the program looks
into byte by byte (format directives, path separators, the header of the stack
text) is ASCII, where a byte and a character are the same thing.

What the Go runtime and the standard library contribute (the clock, the call
stack, the goroutine header, `time.Time.Format`, the part of `fmt` that the
built-in templates do not use) is collected in `Env`.
-/

namespace Logger

/-- A Go `string` (or `[]byte`), as the list of its characters. -/
abbrev GoString := List Char

/-! ## Constants of the `const` block

The block declares `DefaultTimeFormat`, `FLAT` and `JSON` before the levels, so
`iota` is already 3 at `DEBUG`. -/

/-- `DefaultTimeFormat = "15:04:05.000"` -/
def DefaultTimeFormat : GoString := "15:04:05.000".toList

/-- The flat template (`FLAT`). -/
def FLAT : GoString :=
  "%[1]s[%[2]s]%[3]s%[4]s%[3]s%[5]s%[3]sgoroutine:%[6]d%[3]s%[7]s\x1b[0m\n".toList

/-- The JSON template (`JSON`). -/
def JSON : GoString :=
  "%[1]s\x7b\"level\":\"%[2]s\",\"time\":\"%[4]s\",\"location\":\"%[5]s\",\"goroutine\":%[6]d,\"message\":\"%[7]s\"\x7d\x1b[0m\n".toList

/-- `type Level uint8` -/
abbrev Level := Fin 256

/-- `DEBUG Level = iota`, the fourth constant of the block. -/
def DEBUG : Level := 3
/-- `INFO` -/
def INFO : Level := 4
/-- `WARN` -/
def WARN : Level := 5
/-- `ERROR` -/
def ERROR : Level := 6
/-- `FATAL` -/
def FATAL : Level := 7
/-- `OFF`: disable logging. -/
def OFF : Level := 8

/-- `type Label struct { name, color string }` -/
structure Label where
  name : GoString
  color : GoString
deriving DecidableEq, Repr

/-- `type Message struct` -/
structure Message where
  label : Label
  time : Nat
  location : GoString
  goroutineId : Nat
  text : GoString
deriving DecidableEq, Repr

/-! ## The output sink -/

/-- An `io.Writer`.  `written` records the argument of every `Write` call made
so far, oldest first; `respond` is the sink's own answer to a `Write` of the
given bytes: the count it reports and whether it reports an error. -/
structure Writer where
  written : List GoString
  respond : GoString → Nat × Bool

/-- One call of `w.Write(p)`: the attempt is recorded and the sink answers. -/
def Writer.Write (w : Writer) (p : GoString) : Writer × Nat × Bool :=
  ({ w with written := w.written ++ [p] }, w.respond p)

/-- What a sink that keeps every byte (such as `strings.Builder`) holds. -/
def Writer.content (w : Writer) : GoString := w.written.flatten

/-- A fresh `strings.Builder{}`: empty, takes every byte, never fails. -/
def Builder : Writer := { written := [], respond := fun p => (p.length, false) }

/-- `os.Stdout`, seen from the start of the program. -/
def Stdout : Writer := { written := [], respond := fun p => (p.length, false) }

/-- `type Config struct` -/
structure Config where
  level : Level
  timeFormat : GoString
  logFormat : GoString
  output : Writer
  delimiter : GoString

/-- The initial value of the package variable `config`. -/
def config : Config :=
  { level := INFO
    timeFormat := DefaultTimeFormat
    logFormat := FLAT
    output := Stdout
    delimiter := [' '] }

/-- The package variable `levelStore`, a `map[Level]Label`, as its list of
key/value pairs. -/
def levelStore : List (Level × Label) :=
  [ (DEBUG, { name := "DEBUG".toList, color := "\x1b[37m".toList }),
    (INFO, { name := "INFO ".toList, color := "\x1b[32m".toList }),
    (WARN, { name := "WARN ".toList, color := "\x1b[33m".toList }),
    (ERROR, { name := "ERROR".toList, color := "\x1b[31m".toList }),
    (FATAL, { name := "FATAL".toList, color := "\x1b[35m".toList }) ]

/-- Map indexing `levelStore[level]`: the stored label, or the zero `Label`
when the key is absent. -/
def levelStoreAt (level : Level) : Label :=
  match levelStore.lookup level with
  | some l => l
  | none => { name := [], color := [] }

/-! ## Values and the modelled part of `fmt` -/

/-- The operands (`interface{}`) the embedding knows. -/
inductive Value where
  | str (s : GoString)
  | int (i : Int)
  | uint64 (u : Nat)
  | bool (b : Bool)
deriving DecidableEq, Repr

/-- The digit byte `'0' + d`. -/
def digitChar (d : Nat) : Char := Char.ofNat (48 + d)

/-- The loop of `fmtInteger` for base 10: digits are produced from the least
significant one and stored right to left. -/
def fmtDecimalLoop : Nat → Nat → GoString → GoString
  | 0, _, buf => buf
  | fuel + 1, u, buf =>
    if u < 10 then digitChar u :: buf
    else fmtDecimalLoop fuel (u / 10) (digitChar (u % 10) :: buf)

/-- Decimal rendering of an unsigned integer (`%d`). -/
def fmtDecimal (u : Nat) : GoString := fmtDecimalLoop (u + 1) u []

/-- Decimal rendering of a signed integer (`%d`). -/
def fmtInt (i : Int) : GoString :=
  if i < 0 then '-' :: fmtDecimal i.natAbs else fmtDecimal i.natAbs

/-- The method `printArg` of `fmt` for the verbs modelled here: `%v` on every
value, `%s` on strings, `%d` on integers, `%t` on booleans, none of them with
flags.  Other combinations give `none`. -/
def printArg (arg : Value) (verb : Char) : Option GoString :=
  match arg with
  | .str s => if verb = 'v' ∨ verb = 's' then some s else none
  | .int i => if verb = 'v' ∨ verb = 'd' then some (fmtInt i) else none
  | .uint64 u => if verb = 'v' ∨ verb = 'd' then some (fmtDecimal u) else none
  | .bool b =>
    if verb = 'v' ∨ verb = 't' then some (if b then "true".toList else "false".toList)
    else none

/-- Where `doPrintf` stands in the format: in plain text, right after `%`,
inside an explicit argument index `[n]` (with the number read so far, if any),
or right after such an index. -/
inductive Scan where
  | text
  | percent
  | index (num : Option Nat)
  | verb
deriving DecidableEq, Repr

/-- Is `c` one of the decimal digits? -/
def isDigit (c : Char) : Bool := decide (48 ≤ c.toNat ∧ c.toNat ≤ 57)

/-- The method `doPrintf` of `fmt`, one format character at a time, for
formats made of plain text, `%%` and verbs with an optional explicit argument
index `%[n]`.  `argNum` is the next operand, `reordered` records that an index
was seen.  The result is `none` as soon as the format or the operands leave
this fragment: flags, width or precision, an index that is malformed or out of
range, a missing operand, left-over operands, a verb `printArg` does not model. -/
def doPrintf (a : List Value) : GoString → Scan → Nat → Bool → Option GoString
  | [], .text, argNum, reordered =>
    if !reordered && decide (argNum < a.length) then none else some []
  | [], _, _, _ => none
  | c :: rest, .text, argNum, reordered =>
    if c = '%' then doPrintf a rest .percent argNum reordered
    else (doPrintf a rest .text argNum reordered).map (fun out => c :: out)
  | c :: rest, .percent, argNum, reordered =>
    if c = '[' then doPrintf a rest (.index none) argNum true
    else if c = '#' ∨ c = '0' ∨ c = '+' ∨ c = '-' ∨ c = ' ' then none
    else if isDigit c ∨ c = '*' ∨ c = '.' then none
    else if c = '%' then (doPrintf a rest .text argNum reordered).map (fun out => '%' :: out)
    else
      match a.get? argNum with
      | none => none
      | some arg =>
        match printArg arg c with
        | none => none
        | some s => (doPrintf a rest .text (argNum + 1) reordered).map (fun out => s ++ out)
  | c :: rest, .index num, argNum, reordered =>
    if isDigit c then
      match num with
      | none => doPrintf a rest (.index (some (c.toNat - 48))) argNum reordered
      | some n =>
        if n > 1000000 then none
        else doPrintf a rest (.index (some (n * 10 + (c.toNat - 48)))) argNum reordered
    else if c = ']' then
      match num with
      | none => none
      | some n =>
        if 1 ≤ n ∧ n - 1 < a.length then doPrintf a rest .verb (n - 1) reordered
        else none
    else none
  | c :: rest, .verb, argNum, reordered =>
    if isDigit c ∨ c = '*' ∨ c = '.' then none
    else if c = '%' then (doPrintf a rest .text argNum reordered).map (fun out => '%' :: out)
    else
      match a.get? argNum with
      | none => none
      | some arg =>
        match printArg arg c with
        | none => none
        | some s => (doPrintf a rest .text (argNum + 1) reordered).map (fun out => s ++ out)

/-! ## What the runtime and the library supply -/

/-- One entry of the call stack: the source file of a function that is
executing and the line it is at. -/
structure Frame where
  file : GoString
  line : Nat
deriving DecidableEq, Repr

/-- The surroundings of one logging call.

* `now`: the instant `time.Now()` returns;
* `Format layout t`: the text of `t.Format(layout)`;
* `goid`, `gstatus`, `traceback`: the calling goroutine as `runtime.Stack`
  prints it, `goroutine <goid> [<gstatus>]:` and then the frames;
* `srcDir`: the directory under which the runtime knows the package sources;
* `SprintfOther`: `fmt.Sprintf` on the formats and operands that `doPrintf`
  above does not cover. -/
structure Env where
  now : Nat
  Format : GoString → Nat → GoString
  goid : Nat
  goid_lt : goid < 2 ^ 64
  gstatus : GoString
  traceback : GoString
  srcDir : GoString
  SprintfOther : GoString → List Value → GoString

/-- `fmt.Sprintf(format, a...)`. -/
def Sprintf (env : Env) (format : GoString) (a : List Value) : GoString :=
  match doPrintf a format .text 0 false with
  | some out => out
  | none => env.SprintfOther format a

/-- The path of `logger.go` in stack frames. -/
def loggerFile (env : Env) : GoString := env.srcDir ++ "/logger.go".toList

/-- The path of `logger_test.go` in stack frames. -/
def testFile (env : Env) : GoString := env.srcDir ++ "/logger_test.go".toList

/-- `filepath.Base` with `/` as the separator: trailing separators are
stripped, the part after the last separator is kept; the empty path gives `.`
and a path of separators only gives `/`. -/
def filepath_Base (path : GoString) : GoString :=
  if path = [] then ['.']
  else
    let stripped := (path.reverse.dropWhile (fun c => c = '/')).reverse
    let last := (stripped.reverse.takeWhile (fun c => c ≠ '/')).reverse
    if last = [] then ['/'] else last

/-- `runtime.Caller(skip)` on a stack whose first frame is the function that
calls it: file, line and `ok`. -/
def runtime_Caller (stack : List Frame) (skip : Nat) : GoString × Nat × Bool :=
  match stack.get? skip with
  | some f => (f.file, f.line, true)
  | none => ([], 0, false)

/-- `getFileNameAndLine`: short file name and line three frames above the
call of `runtime.Caller`.  `callers` is the stack at its own call. -/
def getFileNameAndLine (env : Env) (callers : List Frame) : GoString × Nat :=
  match runtime_Caller ({ file := loggerFile env, line := 170 } :: callers) 3 with
  | (fileName, line, _) => (filepath_Base fileName, line)

/-- The complete text `runtime.Stack` has for the calling goroutine. -/
def stackText (env : Env) : GoString :=
  "goroutine ".toList ++ fmtDecimal env.goid ++ " [".toList ++ env.gstatus ++
    "]:\n".toList ++ env.traceback

/-- `bytes.TrimPrefix`. -/
def TrimPrefix (s pre : GoString) : GoString :=
  if pre.isPrefixOf s then s.drop pre.length else s

/-- `bytes.IndexByte`: index of the first `c` in `b`, or -1. -/
def IndexByte (b : GoString) (c : Char) : Int :=
  if c ∈ b then (b.indexOf c : Nat) else -1

/-- The digit loop of `strconv.ParseUint(s, 10, 64)` with the value read so
far: the value and whether an error is returned. -/
def ParseUintLoop : GoString → Nat → Nat × Bool
  | [], n => (n, false)
  | c :: rest, n =>
    if isDigit c then
      if n ≥ (2 ^ 64 - 1) / 10 + 1 then (2 ^ 64 - 1, true)
      else
        let n10 := (n * 10) % 2 ^ 64
        let n1 := (n10 + (c.toNat - 48)) % 2 ^ 64
        if n1 < n10 ∨ n1 > 2 ^ 64 - 1 then (2 ^ 64 - 1, true)
        else ParseUintLoop rest n1
    else (0, true)

/-- `strconv.ParseUint(s, 10, 64)`. -/
def ParseUint (s : GoString) : Nat × Bool :=
  if s = [] then (0, true) else ParseUintLoop s 0

/-- `getGoroutineId` on the stack text of the calling goroutine: the first 64
bytes are read, the prefix is trimmed, the text up to the first space is
parsed.  `none` is the run-time panic of slicing with the bound -1. -/
def getGoroutineId (trace : GoString) : Option Nat :=
  let buf := trace.take 64
  let buf := TrimPrefix buf "goroutine ".toList
  let i := IndexByte buf ' '
  if i < 0 then none
  else
    let buf := buf.take i.toNat
    some (ParseUint buf).1

/-- The loop of `newMessage` that fills `textBuilder`. -/
def textLoop (env : Env) : Nat → List Value → GoString → GoString
  | _, [], textBuilder => textBuilder
  | idx, msg :: rest, textBuilder =>
    let sep := if idx ≠ 0 then textBuilder ++ [' '] else textBuilder
    textLoop env (idx + 1) rest (sep ++ Sprintf env "%v".toList [msg])

/-- `newMessage`.  `callers` is the stack at its call: the entry point first,
then the code that called the entry point. -/
def newMessage (env : Env) (callers : List Frame) (level : Level) (v : List Value) :
    Option Message :=
  match getFileNameAndLine env ({ file := loggerFile env, line := 83 } :: callers) with
  | (fileName, line) =>
    let text := textLoop env 0 v []
    match getGoroutineId (stackText env) with
    | none => none
    | some id =>
      some
        { label := levelStoreAt level
          time := env.now
          location := Sprintf env "%s:%d".toList [.str fileName, .int line]
          goroutineId := id
          text := text }

/-- The method `String` of `Message`: the message under the current format. -/
def Message.String (env : Env) (cfg : Config) (message : Message) : GoString :=
  Sprintf env cfg.logFormat
    [ .str message.label.color,
      .str message.label.name,
      .str cfg.delimiter,
      .str (env.Format cfg.timeFormat message.time),
      .str message.location,
      .uint64 message.goroutineId,
      .str message.text ]

/-! ## Setters -/

/-- `SetLevel` -/
def SetLevel (cfg : Config) (level : Level) : Config := { cfg with level := level }

/-- `unicode.ToUpper` on one rune.  ASCII lower-case letters lose 32; the two
other runes whose upper case is an ASCII letter are U+017F and U+0131; every
remaining rune has an upper case outside ASCII and is kept as it is. -/
def toUpperRune (c : Char) : Char :=
  if 97 ≤ c.toNat ∧ c.toNat ≤ 122 then Char.ofNat (c.toNat - 32)
  else if c.toNat = 0x17F then 'S'
  else if c.toNat = 0x131 then 'I'
  else c

/-- `strings.ToUpper` -/
def ToUpper (s : GoString) : GoString := s.map toUpperRune

/-- `SetLevelStr` -/
def SetLevelStr (cfg : Config) (level : GoString) : Config :=
  let up := ToUpper level
  if up = "DEBUG".toList then SetLevel cfg DEBUG
  else if up = "ERROR".toList then SetLevel cfg ERROR
  else if up = "WARN".toList then SetLevel cfg WARN
  else if up = "FATAL".toList then SetLevel cfg FATAL
  else if up = "OFF".toList then SetLevel cfg OFF
  else SetLevel cfg INFO

/-- `SetTimeFormat` -/
def SetTimeFormat (cfg : Config) (format : GoString) : Config := { cfg with timeFormat := format }

/-- `SetLogFormat` -/
def SetLogFormat (cfg : Config) (format : GoString) : Config := { cfg with logFormat := format }

/-- `SetDelimiter` -/
def SetDelimiter (cfg : Config) (delimiter : GoString) : Config :=
  { cfg with delimiter := delimiter }

/-- `SetOutput` -/
def SetOutput (cfg : Config) (output : Writer) : Config := { cfg with output := output }

/-! ## Writing -/

/-- `fmt.Fprint(w, message)`: the single operand is a `Stringer`, so its
`String()` is what gets written, in one `Write`. -/
def Fprint (env : Env) (cfg : Config) (w : Writer) (message : Message) : Writer × Nat × Bool :=
  w.Write (message.String env cfg)

/-- `writeLog`: the message goes to `config.output`; both results of `Fprint`
are dropped.  The embedding has one goroutine, so taking and releasing `mutex`
leaves no trace. -/
def writeLog (env : Env) (cfg : Config) (message : Message) : Config :=
  match Fprint env cfg cfg.output message with
  | (w, _, _) => { cfg with output := w }

/-! ## Entry points

Every entry point takes the stack of the code that calls it (`callers`, the
calling line first) and returns the configuration afterwards; `none` is a panic
raised while the message is built. -/

/-- `Fatal` -/
def Fatal (env : Env) (callers : List Frame) (cfg : Config) (v : List Value) : Option Config :=
  if cfg.level ≤ FATAL then
    (newMessage env ({ file := loggerFile env, line := 198 } :: callers) FATAL v).map
      (writeLog env cfg)
  else some cfg

/-- `Error` -/
def Error (env : Env) (callers : List Frame) (cfg : Config) (v : List Value) : Option Config :=
  if cfg.level ≤ ERROR then
    (newMessage env ({ file := loggerFile env, line := 205 } :: callers) ERROR v).map
      (writeLog env cfg)
  else some cfg

/-- `Warn` -/
def Warn (env : Env) (callers : List Frame) (cfg : Config) (v : List Value) : Option Config :=
  if cfg.level ≤ WARN then
    (newMessage env ({ file := loggerFile env, line := 212 } :: callers) WARN v).map
      (writeLog env cfg)
  else some cfg

/-- `Info` -/
def Info (env : Env) (callers : List Frame) (cfg : Config) (v : List Value) : Option Config :=
  if cfg.level ≤ INFO then
    (newMessage env ({ file := loggerFile env, line := 219 } :: callers) INFO v).map
      (writeLog env cfg)
  else some cfg

/-- `Debug` -/
def Debug (env : Env) (callers : List Frame) (cfg : Config) (v : List Value) : Option Config :=
  if cfg.level ≤ DEBUG then
    (newMessage env ({ file := loggerFile env, line := 226 } :: callers) DEBUG v).map
      (writeLog env cfg)
  else some cfg

/-- `FatalF` -/
def FatalF (env : Env) (callers : List Frame) (cfg : Config) (format : GoString)
    (v : List Value) : Option Config :=
  if cfg.level ≤ FATAL then
    (newMessage env ({ file := loggerFile env, line := 233 } :: callers) FATAL
      [.str (Sprintf env format v)]).map (writeLog env cfg)
  else some cfg

/-- `ErrorF` -/
def ErrorF (env : Env) (callers : List Frame) (cfg : Config) (format : GoString)
    (v : List Value) : Option Config :=
  if cfg.level ≤ ERROR then
    (newMessage env ({ file := loggerFile env, line := 240 } :: callers) ERROR
      [.str (Sprintf env format v)]).map (writeLog env cfg)
  else some cfg

/-- `WarnF` -/
def WarnF (env : Env) (callers : List Frame) (cfg : Config) (format : GoString)
    (v : List Value) : Option Config :=
  if cfg.level ≤ WARN then
    (newMessage env ({ file := loggerFile env, line := 247 } :: callers) WARN
      [.str (Sprintf env format v)]).map (writeLog env cfg)
  else some cfg

/-- `InfoF` -/
def InfoF (env : Env) (callers : List Frame) (cfg : Config) (format : GoString)
    (v : List Value) : Option Config :=
  if cfg.level ≤ INFO then
    (newMessage env ({ file := loggerFile env, line := 254 } :: callers) INFO
      [.str (Sprintf env format v)]).map (writeLog env cfg)
  else some cfg

/-- `DebugF` -/
def DebugF (env : Env) (callers : List Frame) (cfg : Config) (format : GoString)
    (v : List Value) : Option Config :=
  if cfg.level ≤ DEBUG then
    (newMessage env ({ file := loggerFile env, line := 261 } :: callers) DEBUG
      [.str (Sprintf env format v)]).map (writeLog env cfg)
  else some cfg

/-! ## The test helper and `strings.Count` -/

/-- `printAllLevels` of `logger_test.go`: the ten calls of lines 16 to 25, in
order.  `env k` is the surroundings of the call number `k`, `callers` the stack
at the call of `printAllLevels`. -/
def printAllLevels (env : Nat → Env) (callers : List Frame) (cfg : Config) (msg : GoString) :
    Option Config := do
  let site (k : Nat) : List Frame := { file := testFile (env k), line := 16 + k } :: callers
  let cfg ← Debug (env 0) (site 0) cfg [.str "-->".toList, .str msg]
  let cfg ← Info (env 1) (site 1) cfg [.str "-->".toList, .str msg]
  let cfg ← Warn (env 2) (site 2) cfg [.str "-->".toList, .str msg]
  let cfg ← Error (env 3) (site 3) cfg [.str "-->".toList, .str msg]
  let cfg ← Fatal (env 4) (site 4) cfg [.str "-->".toList, .str msg]
  let cfg ← DebugF (env 5) (site 5) cfg "--> %s".toList [.str msg]
  let cfg ← InfoF (env 6) (site 6) cfg "--> %s".toList [.str msg]
  let cfg ← WarnF (env 7) (site 7) cfg "--> %s".toList [.str msg]
  let cfg ← ErrorF (env 8) (site 8) cfg "--> %s".toList [.str msg]
  FatalF (env 9) (site 9) cfg "--> %s".toList [.str msg]

/-- The scan behind `strings.Count` for a non-empty `substr`: occurrences are
taken leftmost first and do not overlap; `skip` is how many characters of the
occurrence just counted are still ahead. -/
def countScan (substr : GoString) : GoString → Nat → Nat
  | [], _ => 0
  | _ :: s, skip + 1 => countScan substr s skip
  | c :: s, 0 =>
    if substr.isPrefixOf (c :: s) then countScan substr s (substr.length - 1) + 1
    else countScan substr s 0

/-- `strings.Count(s, substr)` -/
def Count (s substr : GoString) : Nat :=
  if substr = [] then s.length + 1 else countScan substr s 0

/-! ## Vocabulary of the statements -/

/-- The five levels a message can carry. -/
inductive Severity where
  | debug
  | info
  | warn
  | error
  | fatal
deriving DecidableEq, Repr

/-- The `Level` constant of a severity. -/
def Severity.level : Severity → Level
  | .debug => DEBUG
  | .info => INFO
  | .warn => WARN
  | .error => ERROR
  | .fatal => FATAL

/-- The two call shapes: values, or a format with its operands. -/
inductive Args where
  | values (v : List Value)
  | formatted (format : GoString) (v : List Value)

/-- The call of one of the ten entry points. -/
def invoke (s : Severity) (args : Args) (env : Env) (callers : List Frame) (cfg : Config) :
    Option Config :=
  match s, args with
  | .debug, .values v => Debug env callers cfg v
  | .info, .values v => Info env callers cfg v
  | .warn, .values v => Warn env callers cfg v
  | .error, .values v => Error env callers cfg v
  | .fatal, .values v => Fatal env callers cfg v
  | .debug, .formatted f v => DebugF env callers cfg f v
  | .info, .formatted f v => InfoF env callers cfg f v
  | .warn, .formatted f v => WarnF env callers cfg f v
  | .error, .formatted f v => ErrorF env callers cfg f v
  | .fatal, .formatted f v => FatalF env callers cfg f v

/-- The statement by which calling code starts an entry point `X`.

* `plain`: the call `X(...)` itself;
* `deferred returnLine`: `defer X(...)`; the call runs when the surrounding
  function returns, and the runtime has the surrounding function at the line
  `returnLine` of that return, not at the line of the `defer` statement;
* `spawned goexit`: `go X(...)`; `X` is the first function of a new goroutine,
  and above it the runtime has only `goexit`, the frame of its own function
  into which every goroutine returns (`runtime.goexit`, in an assembly file
  of the runtime). -/
inductive CallStatement where
  | plain
  | deferred (returnLine : Nat)
  | spawned (goexit : Frame)
deriving DecidableEq, Repr

/-- The frame the runtime has directly above an entry point that is started by
`statement`, written at line `line` of the file `path`: what `runtime.Caller`
reports as the caller of the entry point. -/
def callerFrame (statement : CallStatement) (path : GoString) (line : Nat) : Frame :=
  match statement with
  | .plain => { file := path, line := line }
  | .deferred returnLine => { file := path, line := returnLine }
  | .spawned goexit => goexit

/-- The stack above an entry point that is started by `statement`, written at
line `line` of `path` in a function whose own callers are `outer`: the caller
frame and then `outer`, which a new goroutine does not have. -/
def callersAt (statement : CallStatement) (path : GoString) (line : Nat) (outer : List Frame) :
    List Frame :=
  callerFrame statement path line ::
    (match statement with
     | .spawned _ => []
     | _ => outer)

/-- ASCII lower-casing of one character. -/
def asciiLower (c : Char) : Char :=
  if 65 ≤ c.toNat ∧ c.toNat ≤ 90 then Char.ofNat (c.toNat + 32) else c

/-- Equality of two strings when the case of ASCII letters is ignored. -/
def sameIgnoringCase (s t : GoString) : Prop := s.map asciiLower = t.map asciiLower

instance (s t : GoString) : Decidable (sameIgnoringCase s t) := by
  unfold sameIgnoringCase; exact inferInstance

/-- The text has no upper-case ASCII letter. -/
def NoUpper (s : GoString) : Prop := ∀ c ∈ s, ¬ (65 ≤ c.toNat ∧ c.toNat ≤ 90)

instance (s : GoString) : Decidable (NoUpper s) := by
  unfold NoUpper; exact inferInstance

/-- The default display (`%v`) of a value. -/
def display : Value → GoString
  | .str s => s
  | .int i => fmtInt i
  | .uint64 u => fmtDecimal u
  | .bool b => if b then "true".toList else "false".toList

/-- The number a string of decimal digits denotes, continuing from `n`. -/
def decimalValue (n : Nat) (s : GoString) : Nat :=
  s.foldl (fun acc c => acc * 10 + (c.toNat - 48)) n

/-- Strings joined with one space between neighbours. -/
def joinWithSpace : List GoString → GoString
  | [] => []
  | [s] => s
  | s :: t :: rest => s ++ ' ' :: joinWithSpace (t :: rest)

/-- A character is an upper-case ASCII letter other than `I` and `S`, the two
letters that runes outside ASCII have as their upper case. -/
def plainUpper (t : Char) : Prop :=
  65 ≤ t.toNat ∧ t.toNat ≤ 90 ∧ t.toNat ≠ 83 ∧ t.toNat ≠ 73

/-- The text searched for a severity: its name without padding. -/
def keyword : Severity → GoString
  | .debug => "DEBUG".toList
  | .info => "INFO".toList
  | .warn => "WARN".toList
  | .error => "ERROR".toList
  | .fatal => "FATAL".toList

/-- The configuration after `lines` more writes to its sink. -/
def withWritten (cfg : Config) (lines : List GoString) : Config :=
  { cfg with output := { cfg.output with written := cfg.output.written ++ lines } }

/-- The message a call of `printAllLevels` at line `line` of the test file
assembles at severity `s`. -/
def testMessage (e : Env) (s : Severity) (line : Nat) (msg : GoString) : Message :=
  { label := levelStoreAt s.level
    time := e.now
    location := "logger_test.go".toList ++ ':' :: fmtDecimal line
    goroutineId := e.goid
    text := "--> ".toList ++ msg }

/-- What one call of severity `s` adds to the sink under `cfg`. -/
def logged (cfg : Config) (e : Env) (s : Severity) (line : Nat) (msg : GoString) :
    List GoString :=
  if cfg.level ≤ s.level then [(testMessage e s line msg).String e cfg] else []

/-- What the ten calls of `printAllLevels` add to the sink under `cfg`. -/
def testLines (cfg : Config) (env : Nat → Env) (msg : GoString) : List GoString :=
  logged cfg (env 0) .debug 16 msg ++ logged cfg (env 1) .info 17 msg ++
    logged cfg (env 2) .warn 18 msg ++ logged cfg (env 3) .error 19 msg ++
    logged cfg (env 4) .fatal 20 msg ++ logged cfg (env 5) .debug 21 msg ++
    logged cfg (env 6) .info 22 msg ++ logged cfg (env 7) .warn 23 msg ++
    logged cfg (env 8) .error 24 msg ++ logged cfg (env 9) .fatal 25 msg

/-- The initial configuration with minimum level FATAL and the delimiter
`DEBUG`. -/
def loudDelimiterConfig : Config := SetDelimiter (SetLevel config FATAL) "DEBUG".toList

/-- The text is made of digits, `:` and `.` only, as the timestamps of the
layouts `15:04:05.000` and `15:04` are. -/
def clockLike (t : GoString) : Prop := ∀ c ∈ t, isDigit c = true ∨ c = ':' ∨ c = '.'

instance (t : GoString) : Decidable (clockLike t) := by
  unfold clockLike; exact inferInstance

/-- A text between two spaces. -/
def spaced (t : GoString) : GoString := " ".toList ++ t ++ " ".toList

/-- What follows the timestamp and its delimiter in a flat line of
`printAllLevels`, up to the reset escape: location, goroutine tag and text with
the default delimiter between them. -/
def restOfLine (line goid : Nat) (msg : GoString) : GoString :=
  "logger_test.go:".toList ++ fmtDecimal line ++ " goroutine:".toList ++ fmtDecimal goid ++
    " --> ".toList ++ msg

/-- The first field of a flat line: the color escape and the display name in
square brackets. -/
def labelField (l : Label) : GoString := l.color ++ "[".toList ++ l.name ++ "]".toList

/-! ## Sample inputs -/

/-- Sample surroundings: goroutine 18; the sample clock prints every instant
as the layout itself. -/
def sampleEnv : Env :=
  { now := 0
    Format := fun layout _ => layout
    goid := 18
    goid_lt := by decide
    gstatus := "running".toList
    traceback := []
    srcDir := "/src/log-go".toList
    SprintfOther := fun _ _ => [] }

/-- A sample INFO message. -/
def sampleMessage : Message :=
  { label := levelStoreAt INFO
    time := 0
    location := "main.go:7".toList
    goroutineId := 1
    text := "hello".toList }

/-- A sample message whose text holds double quotes. -/
def quotedMessage : Message :=
  { label := levelStoreAt WARN
    time := 0
    location := "main.go:9".toList
    goroutineId := 2
    text := "say \"hi\"".toList }

/-- The flat line with the display name right after the color escape and right
before the first delimiter. -/
def flatLineWithoutBrackets (env : Env) (cfg : Config) (m : Message) : GoString :=
  m.label.color ++ m.label.name ++ " ".toList ++ env.Format cfg.timeFormat m.time ++ " ".toList ++
    m.location ++ " ".toList ++ "goroutine:".toList ++ fmtDecimal m.goroutineId ++ " ".toList ++
    m.text ++ "\x1b[0m".toList ++ "\n".toList

/-- Surroundings in which the layout `goroutine:5 -->` is printed at second 18
by goroutine 18. -/
def clashEnv : Env :=
  { sampleEnv with
    Format := fun layout t =>
      if layout = "goroutine:5 -->".toList then "goroutine:18 -->".toList
      else sampleEnv.Format layout t }

/-! # Lemmas -/

/-! ## Decimal digits -/

theorem digitChar_toNat (d : Nat) (h : d < 10) : (digitChar d).toNat = 48 + d := by
  interval_cases d <;> rfl

theorem isDigit_digitChar (d : Nat) (h : d < 10) : isDigit (digitChar d) = true := by
  interval_cases d <;> rfl

theorem fmtDecimalLoop_all (P : Char → Prop) (hP : ∀ d, d < 10 → P (digitChar d)) :
    ∀ (fuel u : Nat) (buf : GoString), (∀ c ∈ buf, P c) →
      ∀ c ∈ fmtDecimalLoop fuel u buf, P c := by
  intro fuel
  induction fuel with
  | zero => intro u buf hb; simpa [fmtDecimalLoop] using hb
  | succ n ih =>
    intro u buf hb
    unfold fmtDecimalLoop
    split
    · intro c hc
      rcases List.mem_cons.1 hc with rfl | hc
      · exact hP u (by assumption)
      · exact hb c hc
    · apply ih
      intro c hc
      rcases List.mem_cons.1 hc with rfl | hc
      · exact hP _ (Nat.mod_lt _ (by decide))
      · exact hb c hc

theorem fmtDecimal_isDigit (u : Nat) : ∀ c ∈ fmtDecimal u, isDigit c = true :=
  fmtDecimalLoop_all (fun c => isDigit c = true) isDigit_digitChar (u + 1) u [] (by simp)

theorem fmtDecimalLoop_length :
    ∀ (fuel u k : Nat) (buf : GoString), u < fuel → u < 10 ^ (k + 1) →
      (fmtDecimalLoop fuel u buf).length ≤ k + 1 + buf.length := by
  intro fuel
  induction fuel with
  | zero => intro u k buf h; omega
  | succ n ih =>
    intro u k buf hf hk
    unfold fmtDecimalLoop
    split
    · simp; omega
    · rename_i h10
      cases k with
      | zero => simp at hk; omega
      | succ k =>
        have h1 : u / 10 < n := by omega
        have h2 : u / 10 < 10 ^ (k + 1) := by
          rw [Nat.div_lt_iff_lt_mul (by decide)]
          calc u < 10 ^ (k + 1 + 1) := hk
            _ = 10 ^ (k + 1) * 10 := by ring
        have := ih (u / 10) k (digitChar (u % 10) :: buf) h1 h2
        simp at this ⊢
        omega

theorem fmtDecimal_length (u : Nat) (h : u < 2 ^ 64) : (fmtDecimal u).length ≤ 20 := by
  have := fmtDecimalLoop_length (u + 1) u 19 [] (by omega) (by norm_num at h ⊢; omega)
  simpa [fmtDecimal] using this

theorem fmtDecimalLoop_ne_nil : ∀ (fuel u : Nat) (buf : GoString), u < fuel →
    fmtDecimalLoop fuel u buf ≠ [] := by
  intro fuel
  induction fuel with
  | zero => intro u buf h; omega
  | succ n ih =>
    intro u buf hf
    unfold fmtDecimalLoop
    split
    · simp
    · exact ih _ _ (by omega)

theorem fmtDecimal_ne_nil (u : Nat) : fmtDecimal u ≠ [] :=
  fmtDecimalLoop_ne_nil (u + 1) u [] (by omega)

theorem decimalValue_fmtDecimalLoop : ∀ (fuel u : Nat) (buf : GoString), u < fuel →
    decimalValue 0 (fmtDecimalLoop fuel u buf) = decimalValue u buf := by
  intro fuel
  induction fuel with
  | zero => intro u buf h; omega
  | succ n ih =>
    intro u buf hf
    unfold fmtDecimalLoop
    split
    · rename_i h10
      simp [decimalValue, digitChar_toNat u h10]
    · rw [ih _ _ (by omega)]
      simp [decimalValue, digitChar_toNat (u % 10) (Nat.mod_lt _ (by decide))]
      congr 1
      omega

theorem decimalValue_fmtDecimal (u : Nat) : decimalValue 0 (fmtDecimal u) = u := by
  simpa [decimalValue] using decimalValue_fmtDecimalLoop (u + 1) u [] (by omega)

theorem le_decimalValue (s : GoString) : ∀ n, n ≤ decimalValue n s := by
  induction s with
  | nil => intro n; simp [decimalValue]
  | cons c s ih =>
    intro n
    have := ih (n * 10 + (c.toNat - 48))
    simp only [decimalValue, List.foldl_cons] at this ⊢
    omega

theorem ParseUintLoop_digits (s : GoString) : ∀ n, (∀ c ∈ s, isDigit c = true) →
    decimalValue n s < 2 ^ 64 → ParseUintLoop s n = (decimalValue n s, false) := by
  induction s with
  | nil => intro n _ _; simp [ParseUintLoop, decimalValue]
  | cons c s ih =>
    intro n hd hv
    have hc : isDigit c = true := hd c (by simp)
    have hle := le_decimalValue s (n * 10 + (c.toNat - 48))
    have hv2 : decimalValue (n * 10 + (c.toNat - 48)) s < 2 ^ 64 := by
      simpa [decimalValue] using hv
    have hlt : n * 10 + (c.toNat - 48) < 2 ^ 64 := lt_of_le_of_lt hle hv2
    have hmod1 : (n * 10) % 2 ^ 64 = n * 10 := Nat.mod_eq_of_lt (by omega)
    have hmod2 : (n * 10 + (c.toNat - 48)) % 2 ^ 64 = n * 10 + (c.toNat - 48) :=
      Nat.mod_eq_of_lt hlt
    unfold ParseUintLoop
    rw [if_pos hc, if_neg (by norm_num at hlt ⊢; omega)]
    simp only [hmod1, hmod2]
    rw [if_neg (by norm_num at hlt ⊢; omega)]
    exact ih _ (fun c hc => hd c (by simp [hc])) hv2

theorem ParseUint_fmtDecimal (u : Nat) (h : u < 2 ^ 64) : ParseUint (fmtDecimal u) = (u, false) := by
  unfold ParseUint
  rw [if_neg (fmtDecimal_ne_nil u), ParseUintLoop_digits _ _ (fmtDecimal_isDigit u)]
  · rw [decimalValue_fmtDecimal]
  · rw [decimalValue_fmtDecimal]; exact h

theorem space_not_digit (c : Char) (h : isDigit c = true) : c ≠ ' ' := by
  rintro rfl
  exact absurd h (by decide)

theorem getGoroutineId_header (digits rest : GoString) (hd : ∀ c ∈ digits, isDigit c = true)
    (hlen : digits.length ≤ 20) :
    getGoroutineId ("goroutine ".toList ++ digits ++ ' ' :: rest) =
      some (ParseUint digits).1 := by
  have hns : ' ' ∉ digits := fun hm => space_not_digit _ (hd _ hm) rfl
  have htake : List.take 64 ("goroutine ".toList ++ digits ++ ' ' :: rest) =
      "goroutine ".toList ++ (digits ++ ' ' :: List.take (53 - digits.length) rest) := by
    rw [List.append_assoc, List.take_append_eq_append_take, List.take_append_eq_append_take]
    have h1 : List.take 64 "goroutine ".toList = "goroutine ".toList := by decide
    have h2 : ("goroutine ".toList).length = 10 := by decide
    rw [h1, h2, List.take_of_length_le (by omega)]
    have h3 : 64 - 10 - digits.length = (53 - digits.length) + 1 := by omega
    rw [h3, List.take_succ_cons]
  have htrim : TrimPrefix ("goroutine ".toList ++ (digits ++ ' ' :: List.take (53 - digits.length) rest))
      "goroutine ".toList = digits ++ ' ' :: List.take (53 - digits.length) rest := by
    unfold TrimPrefix
    rw [if_pos (by simp)]
    exact List.drop_left _ _
  have hidx : IndexByte (digits ++ ' ' :: List.take (53 - digits.length) rest) ' ' =
      (digits.length : Int) := by
    unfold IndexByte
    rw [if_pos (by simp), List.indexOf_append_of_not_mem hns, List.indexOf_cons_self]
    simp
  unfold getGoroutineId
  simp only [htake, htrim, hidx]
  rw [if_neg (by omega)]
  simp

theorem getGoroutineId_stackText (env : Env) : getGoroutineId (stackText env) = some env.goid := by
  have h := getGoroutineId_header (fmtDecimal env.goid)
    ('[' :: (env.gstatus ++ "]:\n".toList ++ env.traceback)) (fmtDecimal_isDigit _)
    (fmtDecimal_length _ env.goid_lt)
  rw [ParseUint_fmtDecimal _ env.goid_lt] at h
  rw [← h]
  congr 1
  simp [stackText]

/-! ## Paths, text joining, message assembly -/

theorem filepath_Base_join (dir base : GoString) (hne : base ≠ []) (hs : '/' ∉ base) :
    filepath_Base (dir ++ '/' :: base) = base := by
  have hlast : (dir ++ '/' :: base).reverse = base.reverse ++ '/' :: dir.reverse := by simp
  obtain ⟨x, xs, hx⟩ : ∃ x xs, base.reverse = x :: xs := by
    cases h : base.reverse with
    | nil => exact absurd (List.reverse_eq_nil_iff.1 h) hne
    | cons x xs => exact ⟨x, xs, rfl⟩
  have hxs : x ≠ '/' := by
    intro h
    apply hs
    have : x ∈ base.reverse := by rw [hx]; simp
    simpa [h] using this
  have hdrop : List.dropWhile (fun c => decide (c = '/')) (dir ++ '/' :: base).reverse =
      (dir ++ '/' :: base).reverse := by
    rw [hlast, hx]
    simp [List.dropWhile, hxs]
  have htake : List.takeWhile (fun c => decide (c ≠ '/')) (base.reverse ++ '/' :: dir.reverse) =
      base.reverse := by
    rw [List.takeWhile_append_of_pos]
    · simp [List.takeWhile]
    · intro a ha
      have : a ∈ base := List.mem_reverse.1 ha
      simp
      rintro rfl
      exact hs this
  unfold filepath_Base
  rw [if_neg (by simp)]
  simp only [hdrop, List.reverse_reverse]
  rw [hlast, htake, List.reverse_reverse, if_neg hne]

theorem Sprintf_v (env : Env) (x : Value) : Sprintf env ['%', 'v'] [x] = display x := by
  cases x <;> simp [Sprintf, doPrintf, printArg, isDigit, display]

theorem textLoop_succ (env : Env) (v : List Value) : ∀ (idx : Nat) (b : GoString),
    textLoop env (idx + 1) v b = b ++ (v.map (fun x => ' ' :: display x)).flatten := by
  induction v with
  | nil => intro idx b; simp [textLoop]
  | cons x rest ih =>
    intro idx b
    simp [textLoop, ih, Sprintf_v]

theorem joinWithSpace_cons (s : GoString) (rest : List GoString) :
    joinWithSpace (s :: rest) = s ++ (rest.map (fun x => ' ' :: x)).flatten := by
  induction rest generalizing s with
  | nil => simp [joinWithSpace]
  | cons t rest ih => simp [joinWithSpace, ih]

theorem textLoop_zero (env : Env) (v : List Value) :
    textLoop env 0 v [] = joinWithSpace (v.map display) := by
  cases v with
  | nil => rfl
  | cons x rest =>
    simp [textLoop, textLoop_succ, Sprintf_v, joinWithSpace_cons, List.map_map, Function.comp_def]

theorem Sprintf_location (env : Env) (fileName : GoString) (line : Nat) :
    Sprintf env ['%', 's', ':', '%', 'd'] [.str fileName, .int line] =
      fileName ++ ':' :: fmtDecimal line := by
  simp [Sprintf, doPrintf, printArg, isDigit, fmtInt]

/-- The message `newMessage` assembles when the entry point was called from
`site`. -/
theorem newMessage_eq (env : Env) (entry site : Frame) (outer : List Frame) (level : Level)
    (v : List Value) :
    newMessage env (entry :: site :: outer) level v =
      some
        { label := levelStoreAt level
          time := env.now
          location := filepath_Base site.file ++ ':' :: fmtDecimal site.line
          goroutineId := env.goid
          text := joinWithSpace (v.map display) } := by
  simp [newMessage, getFileNameAndLine, runtime_Caller, getGoroutineId_stackText,
    Sprintf_location, textLoop_zero]

/-! ## Rendering and writing -/

theorem String_FLAT (env : Env) (cfg : Config) (m : Message) (h : cfg.logFormat = FLAT) :
    m.String env cfg =
      m.label.color ++ '[' :: (m.label.name ++ ']' :: (cfg.delimiter ++
        (env.Format cfg.timeFormat m.time ++ (cfg.delimiter ++ (m.location ++ (cfg.delimiter ++
        ("goroutine:".toList ++ (fmtDecimal m.goroutineId ++ (cfg.delimiter ++ (m.text ++
        "\x1b[0m\n".toList)))))))))) := by
  unfold Message.String Sprintf
  rw [h]
  rfl

theorem String_JSON (env : Env) (cfg : Config) (m : Message) (h : cfg.logFormat = JSON) :
    m.String env cfg =
      m.label.color ++ ("\x7b\"level\":\"".toList ++ (m.label.name ++ ("\",\"time\":\"".toList ++
        (env.Format cfg.timeFormat m.time ++ ("\",\"location\":\"".toList ++ (m.location ++
        ("\",\"goroutine\":".toList ++ (fmtDecimal m.goroutineId ++ (",\"message\":\"".toList ++
        (m.text ++ "\"\x7d\x1b[0m\n".toList)))))))))) := by
  unfold Message.String Sprintf
  rw [h]
  rfl

theorem writeLog_eq (env : Env) (cfg : Config) (m : Message) :
    writeLog env cfg m =
      { cfg with output := { cfg.output with written := cfg.output.written ++ [m.String env cfg] } } :=
  rfl

/-- The message assembled for a call whose stack is `callers`: its location is
the same whatever the frame of the entry point, the level and the values are. -/
theorem newMessage_any (env : Env) (callers : List Frame) :
    ∃ loc : GoString, ∀ (entry : Frame) (level : Level) (v : List Value),
      newMessage env (entry :: callers) level v =
        some
          { label := levelStoreAt level
            time := env.now
            location := loc
            goroutineId := env.goid
            text := joinWithSpace (v.map display) } := by
  cases callers with
  | nil =>
    exact ⟨_, fun entry level v => by
      simp [newMessage, getFileNameAndLine, runtime_Caller, getGoroutineId_stackText,
        textLoop_zero]; rfl⟩
  | cons site outer => exact ⟨_, fun entry level v => newMessage_eq env entry site outer level v⟩

theorem newMessage_entry (env : Env) (e1 e2 : Frame) (callers : List Frame) (level : Level)
    (v : List Value) :
    newMessage env (e1 :: callers) level v = newMessage env (e2 :: callers) level v := by
  obtain ⟨loc, h⟩ := newMessage_any env callers
  rw [h e1, h e2]

theorem invoke_values (env : Env) (callers : List Frame) (cfg : Config) (s : Severity)
    (v : List Value) :
    invoke s (.values v) env callers cfg =
      if cfg.level ≤ s.level then
        (newMessage env ({ file := loggerFile env, line := 0 } :: callers) s.level v).map
          (writeLog env cfg)
      else some cfg := by
  cases s <;> simp only [invoke, Debug, Info, Warn, Error, Fatal, Severity.level] <;>
    rw [newMessage_entry env _ { file := loggerFile env, line := 0 }]

theorem invoke_formatted (env : Env) (callers : List Frame) (cfg : Config) (s : Severity)
    (f : GoString) (v : List Value) :
    invoke s (.formatted f v) env callers cfg =
      if cfg.level ≤ s.level then
        (newMessage env ({ file := loggerFile env, line := 0 } :: callers) s.level
          [.str (Sprintf env f v)]).map (writeLog env cfg)
      else some cfg := by
  cases s <;> simp only [invoke, DebugF, InfoF, WarnF, ErrorF, FatalF, Severity.level] <;>
    rw [newMessage_entry env _ { file := loggerFile env, line := 0 }]

theorem OFF_not_le (s : Severity) : ¬ (OFF ≤ s.level) := by
  cases s <;> decide

/-- C1: for every minimum level and every one of the ten entry points, the call
hands exactly one rendered message (carrying the label of the entry point's
level) to the sink when the minimum level is at most the entry point's level,
and otherwise returns the configuration, sink included, unchanged; with the
minimum level `OFF` no entry point writes. -/
theorem C1_level_gate (env : Env) (callers : List Frame) (cfg : Config) (s : Severity)
    (args : Args) :
    ∃ m : Message, m.label = levelStoreAt s.level ∧
      invoke s args env callers cfg =
        some (if cfg.level ≤ s.level then
          { cfg with output :=
              { cfg.output with written := cfg.output.written ++ [m.String env cfg] } }
          else cfg) ∧
      invoke s args env callers (SetLevel cfg OFF) = some (SetLevel cfg OFF) := by
  cases args with
  | values v =>
    obtain ⟨loc, h⟩ := newMessage_any env callers
    refine ⟨⟨levelStoreAt s.level, env.now, loc, env.goid, joinWithSpace (v.map display)⟩,
      rfl, ?_, ?_⟩
    · rw [invoke_values, h]
      split <;> rfl
    · rw [invoke_values]
      exact if_neg (OFF_not_le s)
  | formatted f v =>
    obtain ⟨loc, h⟩ := newMessage_any env callers
    refine ⟨⟨levelStoreAt s.level, env.now, loc, env.goid,
      joinWithSpace ([Value.str (Sprintf env f v)].map display)⟩, rfl, ?_, ?_⟩
    · rw [invoke_formatted, h]
      split <;> rfl
    · rw [invoke_formatted]
      exact if_neg (OFF_not_le s)

/-! ## Letter case -/

theorem char_eq_iff_toNat (a b : Char) : a = b ↔ a.toNat = b.toNat := by
  constructor
  · rintro rfl; rfl
  · intro h
    rw [← Char.ofNat_toNat a, ← Char.ofNat_toNat b, h]

theorem toNat_ofNat_ascii (n : Nat) (h : n < 128) : (Char.ofNat n).toNat = n := by
  interval_cases n <;> rfl

theorem toUpperRune_eq_iff (c t : Char) (ht : plainUpper t) :
    toUpperRune c = t ↔ asciiLower c = asciiLower t := by
  obtain ⟨h1, h2, h3, h4⟩ := ht
  have ht32 : (Char.ofNat (t.toNat + 32)).toNat = t.toNat + 32 :=
    toNat_ofNat_ascii _ (by omega)
  have hT : asciiLower t = Char.ofNat (t.toNat + 32) := if_pos ⟨h1, h2⟩
  rw [hT]
  unfold toUpperRune asciiLower
  by_cases hl : 97 ≤ c.toNat ∧ c.toNat ≤ 122
  · have hc32 : (Char.ofNat (c.toNat - 32)).toNat = c.toNat - 32 :=
      toNat_ofNat_ascii _ (by omega)
    rw [if_pos hl, if_neg (by omega), char_eq_iff_toNat, char_eq_iff_toNat c, hc32, ht32]
    omega
  · rw [if_neg hl]
    by_cases h17 : c.toNat = 0x17F
    · rw [if_pos h17, if_neg (by omega), char_eq_iff_toNat, char_eq_iff_toNat c, ht32]
      have : ('S' : Char).toNat = 83 := rfl
      omega
    · rw [if_neg h17]
      by_cases h13 : c.toNat = 0x131
      · rw [if_pos h13, if_neg (by omega), char_eq_iff_toNat, char_eq_iff_toNat c, ht32]
        have : ('I' : Char).toNat = 73 := rfl
        omega
      · rw [if_neg h13]
        by_cases hu : 65 ≤ c.toNat ∧ c.toNat ≤ 90
        · have hc32 : (Char.ofNat (c.toNat + 32)).toNat = c.toNat + 32 :=
            toNat_ofNat_ascii _ (by omega)
          rw [if_pos hu, char_eq_iff_toNat, char_eq_iff_toNat (Char.ofNat _), hc32, ht32]
          omega
        · rw [if_neg hu, char_eq_iff_toNat, char_eq_iff_toNat c, ht32]
          omega

theorem ToUpper_eq_iff (s : GoString) : ∀ T : GoString, (∀ t ∈ T, plainUpper t) →
    (ToUpper s = T ↔ sameIgnoringCase s T) := by
  induction s with
  | nil =>
    intro T _
    cases T <;> simp [ToUpper, sameIgnoringCase]
  | cons c s ih =>
    intro T hT
    cases T with
    | nil => simp [ToUpper, sameIgnoringCase]
    | cons t T =>
      have h1 := toUpperRune_eq_iff c t (hT t (by simp))
      have h2 := ih T (fun x hx => hT x (by simp [hx]))
      simp only [ToUpper, sameIgnoringCase, List.map_cons, List.cons.injEq] at h2 ⊢
      rw [h1, h2]

theorem plainUpper_names :
    (∀ t ∈ "DEBUG".toList, plainUpper t) ∧ (∀ t ∈ "ERROR".toList, plainUpper t) ∧
    (∀ t ∈ "WARN".toList, plainUpper t) ∧ (∀ t ∈ "FATAL".toList, plainUpper t) ∧
    (∀ t ∈ "OFF".toList, plainUpper t) := by
  unfold plainUpper
  decide

theorem SetLevelStr_level (cfg : Config) (s : GoString) :
    (SetLevelStr cfg s).level =
      (if sameIgnoringCase s "DEBUG".toList then DEBUG
       else if sameIgnoringCase s "ERROR".toList then ERROR
       else if sameIgnoringCase s "WARN".toList then WARN
       else if sameIgnoringCase s "FATAL".toList then FATAL
       else if sameIgnoringCase s "OFF".toList then OFF
       else INFO) := by
  obtain ⟨hD, hE, hW, hF, hO⟩ := plainUpper_names
  unfold SetLevelStr
  simp only [ToUpper_eq_iff s _ hD, ToUpper_eq_iff s _ hE, ToUpper_eq_iff s _ hW,
    ToUpper_eq_iff s _ hF, ToUpper_eq_iff s _ hO]
  by_cases h1 : sameIgnoringCase s "DEBUG".toList
  · rw [if_pos h1, if_pos h1]; rfl
  · rw [if_neg h1, if_neg h1]
    by_cases h2 : sameIgnoringCase s "ERROR".toList
    · rw [if_pos h2, if_pos h2]; rfl
    · rw [if_neg h2, if_neg h2]
      by_cases h3 : sameIgnoringCase s "WARN".toList
      · rw [if_pos h3, if_pos h3]; rfl
      · rw [if_neg h3, if_neg h3]
        by_cases h4 : sameIgnoringCase s "FATAL".toList
        · rw [if_pos h4, if_pos h4]; rfl
        · rw [if_neg h4, if_neg h4]
          by_cases h5 : sameIgnoringCase s "OFF".toList
          · rw [if_pos h5, if_pos h5]; rfl
          · rw [if_neg h5, if_neg h5]; rfl

/-- C2: for every string, `SetLevelStr` sets the minimum level to the level
whose name the string equals when letter case is ignored (DEBUG, ERROR, WARN,
FATAL, OFF) and to INFO for every other string, whatever the level was before;
so `INFO`, the empty string and a name with blanks around it all give INFO. -/
theorem C2_SetLevelStr (cfg : Config) (s : GoString) :
    (SetLevelStr cfg s).level =
      (if sameIgnoringCase s "DEBUG".toList then DEBUG
       else if sameIgnoringCase s "ERROR".toList then ERROR
       else if sameIgnoringCase s "WARN".toList then WARN
       else if sameIgnoringCase s "FATAL".toList then FATAL
       else if sameIgnoringCase s "OFF".toList then OFF
       else INFO) ∧
    (SetLevelStr cfg "INFO".toList).level = INFO ∧
    (SetLevelStr cfg []).level = INFO ∧
    (SetLevelStr cfg " debug ".toList).level = INFO ∧
    (SetLevelStr cfg "dEbUg".toList).level = DEBUG :=
  ⟨SetLevelStr_level cfg s, rfl, rfl, rfl, rfl⟩

/-! ## The two templates -/

/-- C3 as stated fails: the flat template puts the display name in square
brackets, so the line of the sample message under the initial configuration is
not the bracket-free line. -/
theorem C3_counterexample :
    sampleMessage.String sampleEnv config ≠ flatLineWithoutBrackets sampleEnv config sampleMessage := by
  decide

/-- C3 (amended): with the flat template, the default delimiter and the default
time format, the rendered line is the color escape, `[`, the display name, `]`,
one space, the formatted timestamp, one space, the location, one space,
`goroutine:` and the decimal id, one space, the text, the reset escape and a
newline. -/
theorem C3_flat_line (env : Env) (cfg : Config) (m : Message) (hf : cfg.logFormat = FLAT)
    (hd : cfg.delimiter = " ".toList) (ht : cfg.timeFormat = DefaultTimeFormat) :
    m.String env cfg =
      m.label.color ++ "[".toList ++ m.label.name ++ "]".toList ++ " ".toList ++
        env.Format DefaultTimeFormat m.time ++ " ".toList ++ m.location ++ " ".toList ++
        "goroutine:".toList ++ fmtDecimal m.goroutineId ++ " ".toList ++ m.text ++
        "\x1b[0m".toList ++ "\n".toList := by
  rw [String_FLAT env cfg m hf, hd, ht]
  simp

/-- The amended C3 at the sample message and the initial configuration. -/
theorem C3_flat_line_witness :
    config.logFormat = FLAT ∧ config.delimiter = " ".toList ∧
      config.timeFormat = DefaultTimeFormat ∧
      sampleMessage.String sampleEnv config =
        "\x1b[32m[INFO ] 15:04:05.000 main.go:7 goroutine:1 hello\x1b[0m\n".toList :=
  ⟨rfl, rfl, rfl, (C3_flat_line sampleEnv config sampleMessage rfl rfl rfl).trans (by decide)⟩

/-- C4: with the JSON template the rendered line is the color escape, the
object with the keys level, time, location, goroutine and message in that
order, the reset escape and a newline; the text is copied as it is, and the
line is the same for every delimiter. -/
theorem C4_json_line (env : Env) (cfg : Config) (m : Message) (hf : cfg.logFormat = JSON) :
    m.String env cfg =
      m.label.color ++ "\x7b\"level\":\"".toList ++ m.label.name ++ "\",\"time\":\"".toList ++
        env.Format cfg.timeFormat m.time ++ "\",\"location\":\"".toList ++ m.location ++
        "\",\"goroutine\":".toList ++ fmtDecimal m.goroutineId ++ ",\"message\":\"".toList ++
        m.text ++ "\"\x7d".toList ++ "\x1b[0m".toList ++ "\n".toList ∧
    ∀ d : GoString, m.String env (SetDelimiter cfg d) = m.String env cfg := by
  constructor
  · rw [String_JSON env cfg m hf]
    simp
  · intro d
    rw [String_JSON env cfg m hf, String_JSON env (SetDelimiter cfg d) m hf]
    rfl

/-- C4 at a message whose text holds double quotes: they reach the line as
they are. -/
theorem C4_json_line_witness :
    (SetLogFormat config JSON).logFormat = JSON ∧
      quotedMessage.String sampleEnv (SetLogFormat config JSON) =
        "\x1b[33m\x7b\"level\":\"WARN \",\"time\":\"15:04:05.000\",\"location\":\"main.go:9\",\"goroutine\":2,\"message\":\"say \"hi\"\"\x7d\x1b[0m\n".toList :=
  ⟨rfl, (C4_json_line sampleEnv (SetLogFormat config JSON) quotedMessage rfl).1.trans (by decide)⟩

/-! ## Counting level names in the output -/

theorem NoUpper_append (a b : GoString) : NoUpper (a ++ b) ↔ NoUpper a ∧ NoUpper b := by
  unfold NoUpper
  simp only [List.mem_append]
  constructor
  · intro h; exact ⟨fun c hc => h c (Or.inl hc), fun c hc => h c (Or.inr hc)⟩
  · rintro ⟨h1, h2⟩ c (hc | hc)
    · exact h1 c hc
    · exact h2 c hc

theorem NoUpper_cons (c : Char) (s : GoString) :
    NoUpper (c :: s) ↔ ¬ (65 ≤ c.toNat ∧ c.toNat ≤ 90) ∧ NoUpper s := by
  unfold NoUpper
  simp

theorem NoUpper_fmtDecimal (u : Nat) : NoUpper (fmtDecimal u) := by
  intro c hc
  have := fmtDecimal_isDigit u c hc
  simp [isDigit] at this
  omega

theorem keyword_head (a : Severity) :
    ∃ u rest, keyword a = u :: rest ∧ 65 ≤ u.toNat ∧ u.toNat ≤ 90 := by
  cases a <;> exact ⟨_, _, rfl, by decide⟩

theorem countScan_skip (sub t : GoString) (u : Char) (rest : GoString) (hsub : sub = u :: rest)
    (hu : 65 ≤ u.toNat ∧ u.toNat ≤ 90) (ht : NoUpper t) (s : GoString) :
    countScan sub (t ++ s) 0 = countScan sub s 0 := by
  subst hsub
  induction t with
  | nil => rfl
  | cons c t ih =>
    have hc : ¬ (65 ≤ c.toNat ∧ c.toNat ≤ 90) := ht c (by simp)
    have hne : u ≠ c := by
      rintro rfl
      exact hc hu
    have hpre : (u :: rest).isPrefixOf (c :: (t ++ s)) = false := by
      simp [List.isPrefixOf, hne]
    rw [List.cons_append, countScan, hpre]
    exact ih (fun x hx => ht x (by simp [hx]))

theorem countScan_name (a b : Severity) (s : GoString) :
    countScan (keyword a) ((levelStoreAt b.level).name ++ s) 0 =
      countScan (keyword a) s 0 + (if a = b then 1 else 0) := by
  cases a <;> cases b <;> first | rfl | (cases s <;> rfl)

theorem countScan_line (a b : Severity) (pre post rest : GoString) (hpre : NoUpper pre)
    (hpost : NoUpper post) :
    countScan (keyword a) ((pre ++ ((levelStoreAt b.level).name ++ post)) ++ rest) 0 =
      countScan (keyword a) rest 0 + (if a = b then 1 else 0) := by
  obtain ⟨u, r, hk, hu⟩ := keyword_head a
  rw [List.append_assoc, List.append_assoc, countScan_skip _ pre u r hk hu hpre,
    countScan_name, countScan_skip _ post u r hk hu hpost]

/-! ## The ten calls of `printAllLevels` -/

theorem filepath_Base_testFile (e : Env) : filepath_Base (testFile e) = "logger_test.go".toList :=
  filepath_Base_join e.srcDir "logger_test.go".toList (by decide) (by decide)

theorem Sprintf_arrow (e : Env) (msg : GoString) :
    Sprintf e "--> %s".toList [.str msg] = "--> ".toList ++ msg := by
  simp [Sprintf, doPrintf, printArg, isDigit]

theorem newMessage_test_values (e : Env) (entry : Frame) (line : Nat) (outer : List Frame)
    (s : Severity) (msg : GoString) :
    newMessage e (entry :: { file := testFile e, line := line } :: outer) s.level
      [.str "-->".toList, .str msg] = some (testMessage e s line msg) := by
  rw [newMessage_eq, filepath_Base_testFile]
  rfl

theorem newMessage_test_formatted (e : Env) (entry : Frame) (line : Nat) (outer : List Frame)
    (s : Severity) (msg : GoString) :
    newMessage e (entry :: { file := testFile e, line := line } :: outer) s.level
      [.str (Sprintf e "--> %s".toList [.str msg])] = some (testMessage e s line msg) := by
  rw [newMessage_eq, filepath_Base_testFile, Sprintf_arrow]
  rfl

theorem writeLog_withWritten (e : Env) (cfg : Config) (lines : List GoString) (m : Message) :
    writeLog e (withWritten cfg lines) m = withWritten cfg (lines ++ [m.String e cfg]) := by
  simp [writeLog, Fprint, Writer.Write, withWritten, Message.String]

theorem step_values (e : Env) (line : Nat) (outer : List Frame) (cfg : Config)
    (lines : List GoString) (s : Severity) (msg : GoString) :
    invoke s (.values [.str "-->".toList, .str msg]) e
        ({ file := testFile e, line := line } :: outer) (withWritten cfg lines) =
      some (withWritten cfg (lines ++ logged cfg e s line msg)) := by
  rw [invoke_values, newMessage_test_values]
  unfold logged
  by_cases h : cfg.level ≤ s.level
  · rw [if_pos (show (withWritten cfg lines).level ≤ s.level from h), if_pos h]
    exact congrArg some (writeLog_withWritten e cfg lines _)
  · rw [if_neg (show ¬ (withWritten cfg lines).level ≤ s.level from h), if_neg h,
      List.append_nil]

theorem step_formatted (e : Env) (line : Nat) (outer : List Frame) (cfg : Config)
    (lines : List GoString) (s : Severity) (msg : GoString) :
    invoke s (.formatted "--> %s".toList [.str msg]) e
        ({ file := testFile e, line := line } :: outer) (withWritten cfg lines) =
      some (withWritten cfg (lines ++ logged cfg e s line msg)) := by
  rw [invoke_formatted, newMessage_test_formatted]
  unfold logged
  by_cases h : cfg.level ≤ s.level
  · rw [if_pos (show (withWritten cfg lines).level ≤ s.level from h), if_pos h]
    exact congrArg some (writeLog_withWritten e cfg lines _)
  · rw [if_neg (show ¬ (withWritten cfg lines).level ≤ s.level from h), if_neg h,
      List.append_nil]

theorem withWritten_nil (cfg : Config) : withWritten cfg [] = cfg := by
  simp [withWritten]

theorem printAllLevels_eq (env : Nat → Env) (outer : List Frame) (cfg : Config)
    (msg : GoString) :
    printAllLevels env outer cfg msg = some (withWritten cfg (testLines cfg env msg)) := by
  have h0 : ∀ ls, Debug (env 0) ({ file := testFile (env 0), line := 16 + 0 } :: outer)
      (withWritten cfg ls) [.str "-->".toList, .str msg] = _ :=
    fun ls => step_values (env 0) (16 + 0) outer cfg ls .debug msg
  have h1 : ∀ ls, Info (env 1) ({ file := testFile (env 1), line := 16 + 1 } :: outer)
      (withWritten cfg ls) [.str "-->".toList, .str msg] = _ :=
    fun ls => step_values (env 1) (16 + 1) outer cfg ls .info msg
  have h2 : ∀ ls, Warn (env 2) ({ file := testFile (env 2), line := 16 + 2 } :: outer)
      (withWritten cfg ls) [.str "-->".toList, .str msg] = _ :=
    fun ls => step_values (env 2) (16 + 2) outer cfg ls .warn msg
  have h3 : ∀ ls, Error (env 3) ({ file := testFile (env 3), line := 16 + 3 } :: outer)
      (withWritten cfg ls) [.str "-->".toList, .str msg] = _ :=
    fun ls => step_values (env 3) (16 + 3) outer cfg ls .error msg
  have h4 : ∀ ls, Fatal (env 4) ({ file := testFile (env 4), line := 16 + 4 } :: outer)
      (withWritten cfg ls) [.str "-->".toList, .str msg] = _ :=
    fun ls => step_values (env 4) (16 + 4) outer cfg ls .fatal msg
  have h5 : ∀ ls, DebugF (env 5) ({ file := testFile (env 5), line := 16 + 5 } :: outer)
      (withWritten cfg ls) "--> %s".toList [.str msg] = _ :=
    fun ls => step_formatted (env 5) (16 + 5) outer cfg ls .debug msg
  have h6 : ∀ ls, InfoF (env 6) ({ file := testFile (env 6), line := 16 + 6 } :: outer)
      (withWritten cfg ls) "--> %s".toList [.str msg] = _ :=
    fun ls => step_formatted (env 6) (16 + 6) outer cfg ls .info msg
  have h7 : ∀ ls, WarnF (env 7) ({ file := testFile (env 7), line := 16 + 7 } :: outer)
      (withWritten cfg ls) "--> %s".toList [.str msg] = _ :=
    fun ls => step_formatted (env 7) (16 + 7) outer cfg ls .warn msg
  have h8 : ∀ ls, ErrorF (env 8) ({ file := testFile (env 8), line := 16 + 8 } :: outer)
      (withWritten cfg ls) "--> %s".toList [.str msg] = _ :=
    fun ls => step_formatted (env 8) (16 + 8) outer cfg ls .error msg
  have h9 : ∀ ls, FatalF (env 9) ({ file := testFile (env 9), line := 16 + 9 } :: outer)
      (withWritten cfg ls) "--> %s".toList [.str msg] = _ :=
    fun ls => step_formatted (env 9) (16 + 9) outer cfg ls .fatal msg
  have hstart : printAllLevels env outer cfg msg =
      printAllLevels env outer (withWritten cfg []) msg := by rw [withWritten_nil]
  rw [hstart]
  unfold printAllLevels
  simp only [h0, h1, h2, h3, h4, h5, h6, h7, h8, h9, Option.bind_eq_bind, Option.some_bind,
    List.nil_append, testLines, List.append_assoc]

theorem NoUpper_color (b : Severity) : NoUpper ((levelStoreAt b.level).color ++ ['[']) := by
  cases b <;> decide

theorem countScan_testLine (a b : Severity) (e : Env) (cfg : Config) (line : Nat)
    (msg rest : GoString) (hf : cfg.logFormat = FLAT ∨ cfg.logFormat = JSON)
    (hd : NoUpper cfg.delimiter) (hmsg : NoUpper msg)
    (ht : NoUpper (e.Format cfg.timeFormat e.now)) :
    countScan (keyword a) ((testMessage e b line msg).String e cfg ++ rest) 0 =
      countScan (keyword a) rest 0 + (if a = b then 1 else 0) := by
  have h1 : NoUpper "logger_test.go:".toList := by decide
  have h2 : NoUpper "goroutine:".toList := by decide
  have h3 : NoUpper "--> ".toList := by decide
  have h4 : NoUpper "\x1b[0m\n".toList := by decide
  rcases hf with hf | hf
  · have hshape : (testMessage e b line msg).String e cfg =
        ((levelStoreAt b.level).color ++ ['[']) ++ ((levelStoreAt b.level).name ++
          (']' :: (cfg.delimiter ++ (e.Format cfg.timeFormat e.now ++ (cfg.delimiter ++
            ("logger_test.go:".toList ++ (fmtDecimal line ++ (cfg.delimiter ++
            ("goroutine:".toList ++ (fmtDecimal e.goid ++ (cfg.delimiter ++ ("--> ".toList ++
            (msg ++ "\x1b[0m\n".toList)))))))))))))  := by
      rw [String_FLAT e cfg _ hf]
      simp [testMessage]
    rw [hshape]
    apply countScan_line a b _ _ rest (NoUpper_color b)
    have hb : ¬ (65 ≤ (']' : Char).toNat ∧ (']' : Char).toNat ≤ 90) := by decide
    simp only [NoUpper_cons, NoUpper_append]
    exact ⟨hb, hd, ht, hd, h1, NoUpper_fmtDecimal _, hd, h2, NoUpper_fmtDecimal _, hd, h3,
      hmsg, h4⟩
  · have hshape : (testMessage e b line msg).String e cfg =
        ((levelStoreAt b.level).color ++ "\x7b\"level\":\"".toList) ++
          ((levelStoreAt b.level).name ++ ("\",\"time\":\"".toList ++
            (e.Format cfg.timeFormat e.now ++ ("\",\"location\":\"".toList ++
            ("logger_test.go:".toList ++ (fmtDecimal line ++ ("\",\"goroutine\":".toList ++
            (fmtDecimal e.goid ++ (",\"message\":\"".toList ++ ("--> ".toList ++
            (msg ++ "\"\x7d\x1b[0m\n".toList))))))))))) := by
      rw [String_JSON e cfg _ hf]
      simp [testMessage]
    rw [hshape]
    apply countScan_line a b _ _ rest (by cases b <;> decide)
    have k1 : NoUpper "\",\"time\":\"".toList := by decide
    have k2 : NoUpper "\",\"location\":\"".toList := by decide
    have k3 : NoUpper "\",\"goroutine\":".toList := by decide
    have k4 : NoUpper ",\"message\":\"".toList := by decide
    have k5 : NoUpper "\"\x7d\x1b[0m\n".toList := by decide
    simp only [NoUpper_append]
    exact ⟨k1, ht, k2, h1, NoUpper_fmtDecimal _, k3, NoUpper_fmtDecimal _, k4, h3, hmsg, k5⟩

/-- C5: at minimum level DEBUG, with the flat template and the default
delimiter, the ten calls of `printAllLevels` with a text and timestamps free of
upper-case letters all succeed and add ten lines to the sink, in which each of
`DEBUG`, `INFO`, `WARN`, `ERROR` and `FATAL` occurs exactly twice. -/
theorem C5_debug_counts (env : Nat → Env) (outer : List Frame) (cfg : Config) (msg : GoString)
    (hl : cfg.level = DEBUG) (hf : cfg.logFormat = FLAT) (hd : cfg.delimiter = " ".toList)
    (hmsg : NoUpper msg) (ht : ∀ k, NoUpper ((env k).Format cfg.timeFormat (env k).now)) :
    ∃ lines : List GoString,
      printAllLevels env outer cfg msg =
        some { cfg with output :=
          { cfg.output with written := cfg.output.written ++ lines } } ∧
      lines.length = 10 ∧
      Count lines.flatten "DEBUG".toList = 2 ∧ Count lines.flatten "INFO".toList = 2 ∧
      Count lines.flatten "WARN".toList = 2 ∧ Count lines.flatten "ERROR".toList = 2 ∧
      Count lines.flatten "FATAL".toList = 2 := by
  have hdu : NoUpper cfg.delimiter := by rw [hd]; decide
  refine ⟨testLines cfg env msg, printAllLevels_eq env outer cfg msg, ?_⟩
  have hlines : testLines cfg env msg =
      [ (testMessage (env 0) .debug 16 msg).String (env 0) cfg,
        (testMessage (env 1) .info 17 msg).String (env 1) cfg,
        (testMessage (env 2) .warn 18 msg).String (env 2) cfg,
        (testMessage (env 3) .error 19 msg).String (env 3) cfg,
        (testMessage (env 4) .fatal 20 msg).String (env 4) cfg,
        (testMessage (env 5) .debug 21 msg).String (env 5) cfg,
        (testMessage (env 6) .info 22 msg).String (env 6) cfg,
        (testMessage (env 7) .warn 23 msg).String (env 7) cfg,
        (testMessage (env 8) .error 24 msg).String (env 8) cfg,
        (testMessage (env 9) .fatal 25 msg).String (env 9) cfg ] := by
    simp [testLines, logged, hl, Severity.level, DEBUG, INFO, WARN, ERROR, FATAL]
  have hcount : ∀ a : Severity, Count (testLines cfg env msg).flatten (keyword a) = 2 := by
    intro a
    have hne : keyword a ≠ [] := by cases a <;> decide
    rw [hlines]
    unfold Count
    rw [if_neg hne]
    simp only [List.flatten_cons, List.flatten_nil]
    rw [countScan_testLine a _ _ _ _ _ _ (Or.inl hf) hdu hmsg (ht 0),
      countScan_testLine a _ _ _ _ _ _ (Or.inl hf) hdu hmsg (ht 1),
      countScan_testLine a _ _ _ _ _ _ (Or.inl hf) hdu hmsg (ht 2),
      countScan_testLine a _ _ _ _ _ _ (Or.inl hf) hdu hmsg (ht 3),
      countScan_testLine a _ _ _ _ _ _ (Or.inl hf) hdu hmsg (ht 4),
      countScan_testLine a _ _ _ _ _ _ (Or.inl hf) hdu hmsg (ht 5),
      countScan_testLine a _ _ _ _ _ _ (Or.inl hf) hdu hmsg (ht 6),
      countScan_testLine a _ _ _ _ _ _ (Or.inl hf) hdu hmsg (ht 7),
      countScan_testLine a _ _ _ _ _ _ (Or.inl hf) hdu hmsg (ht 8),
      countScan_testLine a _ _ _ _ _ _ (Or.inl hf) hdu hmsg (ht 9)]
    cases a <;> rfl
  refine ⟨?_, hcount .debug, hcount .info, hcount .warn, hcount .error, hcount .fatal⟩
  rw [hlines]
  rfl

/-- C5 at the sample surroundings, after `SetLevelStr("DEBUG")` on the initial
configuration, with the text of `TestDebug`. -/
theorem C5_debug_counts_witness :
    ∃ lines : List GoString,
      printAllLevels (fun _ => sampleEnv) [] (SetLevelStr config "DEBUG".toList)
          "test debug message".toList =
        some { SetLevelStr config "DEBUG".toList with output :=
          { (SetLevelStr config "DEBUG".toList).output with
            written := (SetLevelStr config "DEBUG".toList).output.written ++ lines } } ∧
      lines.length = 10 ∧
      Count lines.flatten "DEBUG".toList = 2 ∧ Count lines.flatten "INFO".toList = 2 ∧
      Count lines.flatten "WARN".toList = 2 ∧ Count lines.flatten "ERROR".toList = 2 ∧
      Count lines.flatten "FATAL".toList = 2 :=
  C5_debug_counts (fun _ => sampleEnv) [] (SetLevelStr config "DEBUG".toList)
    "test debug message".toList rfl rfl rfl (by decide)
    (fun _ => show NoUpper DefaultTimeFormat from by decide)

set_option maxRecDepth 100000 in
/-- C6 as stated fails: it leaves the template and the delimiter open, and with
minimum level FATAL, the flat template and the delimiter `DEBUG` the two lines
written hold `DEBUG` eight times, although text, location and timestamp have no
upper-case letter. -/
theorem C6_counterexample :
    loudDelimiterConfig.level = FATAL ∧ NoUpper "test fatal message".toList ∧
      NoUpper (sampleEnv.Format loudDelimiterConfig.timeFormat sampleEnv.now) ∧
      (printAllLevels (fun _ => sampleEnv) [] loudDelimiterConfig
        "test fatal message".toList).map
          (fun c => Count c.output.content "DEBUG".toList) = some 8 := by
  exact ⟨rfl, by decide, by decide, rfl⟩

/-- C6 (amended): at minimum level FATAL, with the flat or the JSON template and
a delimiter free of upper-case letters, the ten calls of `printAllLevels` with
a text and timestamps free of upper-case letters all succeed and add two lines
to the sink, in which `FATAL` occurs exactly twice and `DEBUG`, `INFO`, `WARN`
and `ERROR` do not occur. -/
theorem C6_fatal_counts (env : Nat → Env) (outer : List Frame) (cfg : Config) (msg : GoString)
    (hl : cfg.level = FATAL) (hf : cfg.logFormat = FLAT ∨ cfg.logFormat = JSON)
    (hd : NoUpper cfg.delimiter) (hmsg : NoUpper msg)
    (ht : ∀ k, NoUpper ((env k).Format cfg.timeFormat (env k).now)) :
    ∃ lines : List GoString,
      printAllLevels env outer cfg msg =
        some { cfg with output :=
          { cfg.output with written := cfg.output.written ++ lines } } ∧
      lines.length = 2 ∧
      Count lines.flatten "FATAL".toList = 2 ∧ Count lines.flatten "DEBUG".toList = 0 ∧
      Count lines.flatten "INFO".toList = 0 ∧ Count lines.flatten "WARN".toList = 0 ∧
      Count lines.flatten "ERROR".toList = 0 := by
  refine ⟨testLines cfg env msg, printAllLevels_eq env outer cfg msg, ?_⟩
  have hlines : testLines cfg env msg =
      [ (testMessage (env 4) .fatal 20 msg).String (env 4) cfg,
        (testMessage (env 9) .fatal 25 msg).String (env 9) cfg ] := by
    simp [testLines, logged, hl, Severity.level, DEBUG, INFO, WARN, ERROR, FATAL]
  have hcount : ∀ a : Severity,
      Count (testLines cfg env msg).flatten (keyword a) = if a = .fatal then 2 else 0 := by
    intro a
    have hne : keyword a ≠ [] := by cases a <;> decide
    rw [hlines]
    unfold Count
    rw [if_neg hne]
    simp only [List.flatten_cons, List.flatten_nil]
    rw [countScan_testLine a _ _ _ _ _ _ hf hd hmsg (ht 4),
      countScan_testLine a _ _ _ _ _ _ hf hd hmsg (ht 9)]
    cases a <;> rfl
  refine ⟨?_, hcount .fatal, hcount .debug, hcount .info, hcount .warn, hcount .error⟩
  rw [hlines]
  rfl

/-- The amended C6 at the sample surroundings, after `SetLevelStr("FATAL")` on
the initial configuration, with the text of `TestFatal`. -/
theorem C6_fatal_counts_witness :
    ∃ lines : List GoString,
      printAllLevels (fun _ => sampleEnv) [] (SetLevelStr config "FATAL".toList)
          "test fatal message".toList =
        some { SetLevelStr config "FATAL".toList with output :=
          { (SetLevelStr config "FATAL".toList).output with
            written := (SetLevelStr config "FATAL".toList).output.written ++ lines } } ∧
      lines.length = 2 ∧
      Count lines.flatten "FATAL".toList = 2 ∧ Count lines.flatten "DEBUG".toList = 0 ∧
      Count lines.flatten "INFO".toList = 0 ∧ Count lines.flatten "WARN".toList = 0 ∧
      Count lines.flatten "ERROR".toList = 0 :=
  C6_fatal_counts (fun _ => sampleEnv) [] (SetLevelStr config "FATAL".toList)
    "test fatal message".toList rfl (Or.inl rfl) (by decide) (by decide)
    (fun _ => show NoUpper DefaultTimeFormat from by decide)

/-! ## Logging switched off -/

theorem SetLevelStr_off (cfg : Config) (level : GoString)
    (h : sameIgnoringCase level "OFF".toList) :
    SetLevelStr cfg level = SetLevel cfg OFF := by
  have hD : ¬ ToUpper level = "DEBUG".toList := by
    rw [ToUpper_eq_iff _ _ plainUpper_names.1]
    unfold sameIgnoringCase at h ⊢
    rw [h]; decide
  have hE : ¬ ToUpper level = "ERROR".toList := by
    rw [ToUpper_eq_iff _ _ plainUpper_names.2.1]
    unfold sameIgnoringCase at h ⊢
    rw [h]; decide
  have hW : ¬ ToUpper level = "WARN".toList := by
    rw [ToUpper_eq_iff _ _ plainUpper_names.2.2.1]
    unfold sameIgnoringCase at h ⊢
    rw [h]; decide
  have hF : ¬ ToUpper level = "FATAL".toList := by
    rw [ToUpper_eq_iff _ _ plainUpper_names.2.2.2.1]
    unfold sameIgnoringCase at h ⊢
    rw [h]; decide
  have hO : ToUpper level = "OFF".toList :=
    (ToUpper_eq_iff _ _ plainUpper_names.2.2.2.2).2 h
  unfold SetLevelStr
  simp only [if_neg hD, if_neg hE, if_neg hW, if_neg hF, if_pos hO]

theorem testLines_off (cfg : Config) (env : Nat → Env) (msg : GoString) (h : cfg.level = OFF) :
    testLines cfg env msg = [] := by
  simp [testLines, logged, h, Severity.level, DEBUG, INFO, WARN, ERROR, FATAL, OFF]

/-- C7: after `SetLevelStr` with `OFF` in any letter case, whatever the
template, delimiter, time format and sink are, every one of the ten entry
points, with any operands, returns the configuration and its sink unchanged,
and so do the ten calls of `printAllLevels` together. -/
theorem C7_off_writes_nothing (env : Nat → Env) (e : Env) (callers : List Frame) (cfg : Config)
    (level : GoString) (h : sameIgnoringCase level "OFF".toList) (s : Severity) (args : Args)
    (msg : GoString) :
    (SetLevelStr cfg level).level = OFF ∧
      invoke s args e callers (SetLevelStr cfg level) = some (SetLevelStr cfg level) ∧
      printAllLevels env callers (SetLevelStr cfg level) msg = some (SetLevelStr cfg level) ∧
      (SetLevelStr cfg level).output = cfg.output := by
  rw [SetLevelStr_off cfg level h]
  refine ⟨rfl, ?_, ?_, rfl⟩
  · cases args with
    | values v =>
      rw [invoke_values]
      exact if_neg (OFF_not_le s)
    | formatted f v =>
      rw [invoke_formatted]
      exact if_neg (OFF_not_le s)
  · rw [printAllLevels_eq, testLines_off _ _ _ rfl, withWritten_nil]

/-- C7 at the spelling `oFf`, the JSON template and the delimiter `<~>`. -/
theorem C7_off_writes_nothing_witness :
    sameIgnoringCase "oFf".toList "OFF".toList ∧
      (SetLevelStr (SetDelimiter (SetLogFormat config JSON) "<~>".toList) "oFf".toList).level =
        OFF ∧
      invoke .fatal (.values [.str "-->".toList, .str "test off message".toList]) sampleEnv []
          (SetLevelStr (SetDelimiter (SetLogFormat config JSON) "<~>".toList) "oFf".toList) =
        some (SetLevelStr (SetDelimiter (SetLogFormat config JSON) "<~>".toList) "oFf".toList) ∧
      printAllLevels (fun _ => sampleEnv) []
          (SetLevelStr (SetDelimiter (SetLogFormat config JSON) "<~>".toList) "oFf".toList)
          "test off message".toList =
        some (SetLevelStr (SetDelimiter (SetLogFormat config JSON) "<~>".toList) "oFf".toList) ∧
      (SetLevelStr (SetDelimiter (SetLogFormat config JSON) "<~>".toList) "oFf".toList).output =
        (SetDelimiter (SetLogFormat config JSON) "<~>".toList).output :=
  ⟨by decide,
    C7_off_writes_nothing (fun _ => sampleEnv) sampleEnv []
      (SetDelimiter (SetLogFormat config JSON) "<~>".toList) "oFf".toList (by decide) .fatal
      (.values [.str "-->".toList, .str "test off message".toList]) "test off message".toList⟩

/-! ## Message text, call shapes, call site -/

theorem joinWithSpace_eq_intercalate (l : List GoString) :
    joinWithSpace l = [' '].intercalate l := by
  induction l with
  | nil => rfl
  | cons s rest ih =>
    cases rest with
    | nil => simp [joinWithSpace, List.intercalate]
    | cons t rest =>
      rw [joinWithSpace, ih]
      simp [List.intercalate]

theorem invoke_eq (env : Env) (callers : List Frame) :
    ∃ loc : GoString, ∀ (s : Severity) (args : Args) (cfg : Config),
      invoke s args env callers cfg =
        if cfg.level ≤ s.level then
          some (writeLog env cfg
            { label := levelStoreAt s.level
              time := env.now
              location := loc
              goroutineId := env.goid
              text :=
                match args with
                | .values v => joinWithSpace (v.map display)
                | .formatted f v => Sprintf env f v })
        else some cfg := by
  obtain ⟨loc, h⟩ := newMessage_any env callers
  refine ⟨loc, fun s args cfg => ?_⟩
  cases args with
  | values v => rw [invoke_values, h]; rfl
  | formatted f v => rw [invoke_formatted, h]; rfl

/-- C8: the text of the message a variadic entry point assembles is the default
display strings (`%v`) of the values, in order, with one space between
neighbours, whatever the configuration, and so whatever the delimiter, is; no
value gives the empty text and one value gives its display string. -/
theorem C8_text_joined (env : Env) (callers : List Frame) (s : Severity) (v : List Value)
    (x : Value) :
    (∃ m : Message,
      m.text = [' '].intercalate (v.map display) ∧
      (∀ entry : Frame, newMessage env (entry :: callers) s.level v = some m) ∧
      ∀ cfg : Config,
        invoke s (.values v) env callers cfg =
          if cfg.level ≤ s.level then some (writeLog env cfg m) else some cfg) ∧
    display x = Sprintf env "%v".toList [x] ∧
    (∀ entry : Frame,
      (newMessage env (entry :: callers) s.level []).map Message.text = some []) ∧
    (∀ entry : Frame,
      (newMessage env (entry :: callers) s.level [x]).map Message.text = some (display x)) := by
  obtain ⟨loc, h⟩ := newMessage_any env callers
  refine ⟨⟨⟨levelStoreAt s.level, env.now, loc, env.goid, joinWithSpace (v.map display)⟩,
    joinWithSpace_eq_intercalate _, fun entry => h entry s.level v, fun cfg => ?_⟩,
    (Sprintf_v env x).symm, fun entry => by rw [h]; rfl, fun entry => by rw [h]; rfl⟩
  rw [invoke_values, h]
  rfl

/-- C9: a formatted entry point does exactly what the variadic entry point of
the same level does with the one string `Sprintf(format, a...)`, at the same
time, call site and goroutine; and the calls `X("-->", msg)` and
`XF("--> %s", msg)` do the same thing, the text of their message being `--> `
followed by `msg`, behind the same gate. -/
theorem C9_formatted_as_prerendered (env : Env) (callers : List Frame) (cfg : Config)
    (s : Severity) (format : GoString) (a : List Value) (msg : GoString) :
    invoke s (.formatted format a) env callers cfg =
        invoke s (.values [.str (Sprintf env format a)]) env callers cfg ∧
      invoke s (.values [.str "-->".toList, .str msg]) env callers cfg =
        invoke s (.formatted "--> %s".toList [.str msg]) env callers cfg ∧
      ∃ m : Message, m.text = "--> ".toList ++ msg ∧
        invoke s (.formatted "--> %s".toList [.str msg]) env callers cfg =
          if cfg.level ≤ s.level then some (writeLog env cfg m) else some cfg := by
  obtain ⟨loc, h⟩ := invoke_eq env callers
  refine ⟨?_, ?_, ⟨levelStoreAt s.level, env.now, loc, env.goid, "--> ".toList ++ msg⟩, rfl, ?_⟩
  · rw [h, h]; rfl
  · rw [h, h]
    simp only [Sprintf_arrow]
    rfl
  · rw [h]
    simp only [Sprintf_arrow]

theorem filepath_Base_plain (base : GoString) (hne : base ≠ []) (hs : '/' ∉ base) :
    filepath_Base base = base := by
  obtain ⟨x, xs, hx⟩ : ∃ x xs, base.reverse = x :: xs := by
    cases h : base.reverse with
    | nil => exact absurd (List.reverse_eq_nil_iff.1 h) hne
    | cons x xs => exact ⟨x, xs, rfl⟩
  have hxs : x ≠ '/' := by
    intro h
    apply hs
    have : x ∈ base.reverse := by rw [hx]; simp
    simpa [h] using this
  have hdrop : List.dropWhile (fun c => decide (c = '/')) base.reverse = base.reverse := by
    rw [hx]
    simp [List.dropWhile, hxs]
  have htake : List.takeWhile (fun c => decide (c ≠ '/')) base.reverse = base.reverse := by
    rw [List.takeWhile_eq_self_iff]
    intro a ha
    have : a ∈ base := List.mem_reverse.1 ha
    simp
    rintro rfl
    exact hs this
  unfold filepath_Base
  rw [if_neg hne]
  simp only [hdrop, List.reverse_reverse, htake, if_neg hne]

/-- The message of an entry point whose caller frame is `site`: its location
is the short name of the file of `site`, a colon and the line of `site`. -/
theorem invoke_site (env : Env) (site : Frame) (outer : List Frame) (s : Severity) (args : Args) :
    ∃ m : Message,
      m.location = filepath_Base site.file ++ ":".toList ++ fmtDecimal site.line ∧
      ∀ cfg : Config,
        invoke s args env (site :: outer) cfg =
          if cfg.level ≤ s.level then some (writeLog env cfg m) else some cfg := by
  refine ⟨⟨levelStoreAt s.level, env.now, filepath_Base site.file ++ ':' :: fmtDecimal site.line,
      env.goid, match args with
        | .values v => joinWithSpace (v.map display)
        | .formatted f v => Sprintf env f v⟩, by simp, fun cfg => ?_⟩
  cases args with
  | values v => rw [invoke_values, newMessage_eq]; rfl
  | formatted f v => rw [invoke_formatted, newMessage_eq]; rfl

/-- C11: with the flat template, under every delimiter `d` the rendered line is
`F1 ++ d ++ F2 ++ d ++ F3 ++ d ++ F4 ++ d ++ F5`, where the five fields (the
bracketed label with its color, the timestamp, the location, `goroutine:` with
the id, the text with the reset escape and the newline) are the same for every
`d`; so the line contains `d`. -/
theorem C11_delimiter_four_times (env : Env) (cfg : Config) (m : Message)
    (hf : cfg.logFormat = FLAT) :
    ∃ F1 F2 F3 F4 F5 : GoString,
      F1 = m.label.color ++ "[".toList ++ m.label.name ++ "]".toList ∧
      F2 = env.Format cfg.timeFormat m.time ∧
      F3 = m.location ∧
      F4 = "goroutine:".toList ++ fmtDecimal m.goroutineId ∧
      F5 = m.text ++ "\x1b[0m\n".toList ∧
      ∀ d : GoString,
        m.String env (SetDelimiter cfg d) = F1 ++ d ++ F2 ++ d ++ F3 ++ d ++ F4 ++ d ++ F5 ∧
        ∃ before after : GoString, m.String env (SetDelimiter cfg d) = before ++ d ++ after := by
  refine ⟨_, _, _, _, _, rfl, rfl, rfl, rfl, rfl, fun d => ?_⟩
  have h : m.String env (SetDelimiter cfg d) =
      m.label.color ++ "[".toList ++ m.label.name ++ "]".toList ++ d ++
        env.Format cfg.timeFormat m.time ++ d ++ m.location ++ d ++
        ("goroutine:".toList ++ fmtDecimal m.goroutineId) ++ d ++
        (m.text ++ "\x1b[0m\n".toList) := by
    rw [String_FLAT env (SetDelimiter cfg d) m hf]
    simp [SetDelimiter]
  refine ⟨h, m.label.color ++ "[".toList ++ m.label.name ++ "]".toList, ?_, ?_⟩
  · exact env.Format cfg.timeFormat m.time ++ d ++ m.location ++ d ++
      ("goroutine:".toList ++ fmtDecimal m.goroutineId) ++ d ++ (m.text ++ "\x1b[0m\n".toList)
  · rw [h]
    simp

/-- C11 at the sample message and the delimiter `<~>` of `TestSetDelimiter`. -/
theorem C11_delimiter_four_times_witness :
    config.logFormat = FLAT ∧
      sampleMessage.String sampleEnv (SetDelimiter config "<~>".toList) =
        "\x1b[32m[INFO ]<~>15:04:05.000<~>main.go:7<~>goroutine:1<~>hello\x1b[0m\n".toList := by
  refine ⟨rfl, ?_⟩
  obtain ⟨F1, F2, F3, F4, F5, h1, h2, h3, h4, h5, h⟩ :=
    C11_delimiter_four_times sampleEnv config sampleMessage rfl
  rw [(h "<~>".toList).1, h1, h2, h3, h4, h5]
  decide

/-! ## Initial configuration, failing sinks, registry -/

theorem String_FLAT_default (env : Env) (cfg : Config) (m : Message) (hf : cfg.logFormat = FLAT)
    (hd : cfg.delimiter = " ".toList) :
    m.String env cfg =
      m.label.color ++ "[".toList ++ m.label.name ++ "] ".toList ++
        env.Format cfg.timeFormat m.time ++ " ".toList ++ m.location ++ " goroutine:".toList ++
        fmtDecimal m.goroutineId ++ " ".toList ++ m.text ++ "\x1b[0m\n".toList := by
  rw [String_FLAT env cfg m hf, hd]
  simp

/-- C14: the initial configuration is minimum level INFO, time format
`15:04:05.000`, the flat template, the delimiter of one space and standard
output; in it `Debug` and `DebugF` return without writing, and each of the
other eight entry points writes exactly one line, which is the flat line of
its message. -/
theorem C14_initial_configuration (env : Env) (callers : List Frame) (s : Severity)
    (args : Args) :
    config.level = INFO ∧ config.timeFormat = "15:04:05.000".toList ∧
      config.logFormat = FLAT ∧ config.delimiter = " ".toList ∧ config.output = Stdout ∧
      ∃ m : Message, m.label = levelStoreAt s.level ∧
        invoke s args env callers config =
          some (if s = .debug then config
            else { config with output := { config.output with written :=
              [ m.label.color ++ "[".toList ++ m.label.name ++ "] ".toList ++
                  env.Format "15:04:05.000".toList m.time ++ " ".toList ++ m.location ++
                  " goroutine:".toList ++ fmtDecimal m.goroutineId ++ " ".toList ++ m.text ++
                  "\x1b[0m\n".toList ] } }) := by
  refine ⟨rfl, rfl, rfl, rfl, rfl, ?_⟩
  obtain ⟨loc, h⟩ := invoke_eq env callers
  refine ⟨⟨levelStoreAt s.level, env.now, loc, env.goid, match args with
      | .values v => joinWithSpace (v.map display)
      | .formatted f v => Sprintf env f v⟩, rfl, ?_⟩
  rw [h]
  cases s
  · rfl
  all_goals
    rw [if_pos (by decide), if_neg (by decide), writeLog_eq,
      String_FLAT_default env config _ rfl rfl]
    rfl

/-- C15: whatever the sink answers to a `Write` (an error, a short count),
every entry point, `Fatal` and `FatalF` like the others, returns to its caller;
when its gate is open it has made exactly one `Write`, of a line that does not
depend on the sink's answers, and the configuration is otherwise as before;
the message of `Fatal` differs from the others by its label only. -/
theorem C15_sink_failure_ignored (env : Env) (callers : List Frame) (cfg : Config)
    (args : Args) :
    ∃ (loc text : GoString), ∀ (s : Severity) (respond : GoString → Nat × Bool),
      invoke s args env callers
          { cfg with output := { written := cfg.output.written, respond := respond } } =
        some (if cfg.level ≤ s.level then
          { cfg with output :=
              { written := cfg.output.written ++
                  [Message.String env cfg
                    { label := levelStoreAt s.level
                      time := env.now
                      location := loc
                      goroutineId := env.goid
                      text := text }]
                respond := respond } }
          else { cfg with output := { written := cfg.output.written, respond := respond } }) := by
  obtain ⟨loc, h⟩ := invoke_eq env callers
  refine ⟨loc, (match args with
      | .values v => joinWithSpace (v.map display)
      | .formatted f v => Sprintf env f v), fun s respond => ?_⟩
  rw [h]
  by_cases hg : cfg.level ≤ s.level
  · rw [if_pos hg, if_pos (show cfg.level ≤ s.level from hg)]
    rfl
  · rw [if_neg hg, if_neg (show ¬ cfg.level ≤ s.level from hg)]

/-- C16: the registry has one entry for each of DEBUG, INFO, WARN, ERROR and
FATAL, in this order, and none for OFF, whose lookup gives the empty label; the
five names are distinct and five characters long (`INFO ` and `WARN ` are
padded), the five colors are distinct; and every message gets the label the
registry holds for its level, whatever was called before. -/
theorem C16_label_registry (env : Env) (entry : Frame) (callers : List Frame) (level : Level)
    (v : List Value) :
    levelStore.map Prod.fst = [DEBUG, INFO, WARN, ERROR, FATAL] ∧
      (levelStore.map Prod.fst).Nodup ∧
      levelStore.lookup OFF = none ∧
      levelStoreAt OFF = { name := [], color := [] } ∧
      levelStore.map (fun e => e.2.name) =
        ["DEBUG".toList, "INFO ".toList, "WARN ".toList, "ERROR".toList, "FATAL".toList] ∧
      (levelStore.map (fun e => e.2.name)).Nodup ∧
      (∀ e ∈ levelStore, e.2.name.length = 5) ∧
      (levelStore.map (fun e => e.2.color)).Nodup ∧
      (newMessage env (entry :: callers) level v).map Message.label =
        some (levelStoreAt level) := by
  refine ⟨rfl, by decide, rfl, rfl, rfl, by decide, by decide, by decide, ?_⟩
  obtain ⟨loc, h⟩ := newMessage_any env callers
  rw [h]
  rfl

/-! ## Setters, level values, goroutine id -/

theorem SetLevelStr_frame (cfg : Config) (s : GoString) :
    (SetLevelStr cfg s).timeFormat = cfg.timeFormat ∧
      (SetLevelStr cfg s).logFormat = cfg.logFormat ∧
      (SetLevelStr cfg s).output = cfg.output ∧
      (SetLevelStr cfg s).delimiter = cfg.delimiter := by
  unfold SetLevelStr
  simp only []
  split_ifs <;> exact ⟨rfl, rfl, rfl, rfl⟩

/-- C17: each setter gives its own field the value it is passed and leaves the
other four fields as they were; `SetLevelStr` sets the level its string names,
DEBUG, ERROR, WARN, FATAL or OFF whatever the case of the letters and INFO for
every other string, and is `SetLevel` at that level; an entry point leaves
level, time format, template and delimiter as they were, keeps the same sink,
and only adds to the sink's record of writes, and with its gate closed it
returns the configuration as it was. -/
theorem C17_frame (cfg : Config) (level : Level) (name format template delimiter : GoString)
    (output : Writer) (env : Env) (callers : List Frame) (s : Severity) (args : Args) :
    ((SetLevel cfg level).level = level ∧
        (SetLevel cfg level).timeFormat = cfg.timeFormat ∧
        (SetLevel cfg level).logFormat = cfg.logFormat ∧
        (SetLevel cfg level).output = cfg.output ∧
        (SetLevel cfg level).delimiter = cfg.delimiter) ∧
      ((SetLevelStr cfg name).level =
          (if sameIgnoringCase name "DEBUG".toList then DEBUG
           else if sameIgnoringCase name "ERROR".toList then ERROR
           else if sameIgnoringCase name "WARN".toList then WARN
           else if sameIgnoringCase name "FATAL".toList then FATAL
           else if sameIgnoringCase name "OFF".toList then OFF
           else INFO) ∧
        SetLevelStr cfg name =
          SetLevel cfg
            (if sameIgnoringCase name "DEBUG".toList then DEBUG
             else if sameIgnoringCase name "ERROR".toList then ERROR
             else if sameIgnoringCase name "WARN".toList then WARN
             else if sameIgnoringCase name "FATAL".toList then FATAL
             else if sameIgnoringCase name "OFF".toList then OFF
             else INFO) ∧
        (SetLevelStr cfg name).timeFormat = cfg.timeFormat ∧
        (SetLevelStr cfg name).logFormat = cfg.logFormat ∧
        (SetLevelStr cfg name).output = cfg.output ∧
        (SetLevelStr cfg name).delimiter = cfg.delimiter) ∧
      ((SetTimeFormat cfg format).timeFormat = format ∧
        (SetTimeFormat cfg format).level = cfg.level ∧
        (SetTimeFormat cfg format).logFormat = cfg.logFormat ∧
        (SetTimeFormat cfg format).output = cfg.output ∧
        (SetTimeFormat cfg format).delimiter = cfg.delimiter) ∧
      ((SetLogFormat cfg template).logFormat = template ∧
        (SetLogFormat cfg template).level = cfg.level ∧
        (SetLogFormat cfg template).timeFormat = cfg.timeFormat ∧
        (SetLogFormat cfg template).output = cfg.output ∧
        (SetLogFormat cfg template).delimiter = cfg.delimiter) ∧
      ((SetDelimiter cfg delimiter).delimiter = delimiter ∧
        (SetDelimiter cfg delimiter).level = cfg.level ∧
        (SetDelimiter cfg delimiter).timeFormat = cfg.timeFormat ∧
        (SetDelimiter cfg delimiter).logFormat = cfg.logFormat ∧
        (SetDelimiter cfg delimiter).output = cfg.output) ∧
      ((SetOutput cfg output).output = output ∧
        (SetOutput cfg output).level = cfg.level ∧
        (SetOutput cfg output).timeFormat = cfg.timeFormat ∧
        (SetOutput cfg output).logFormat = cfg.logFormat ∧
        (SetOutput cfg output).delimiter = cfg.delimiter) ∧
      ∃ (after : Config) (lines : List GoString),
        invoke s args env callers cfg = some after ∧
        after.level = cfg.level ∧ after.timeFormat = cfg.timeFormat ∧
        after.logFormat = cfg.logFormat ∧ after.delimiter = cfg.delimiter ∧
        after.output.respond = cfg.output.respond ∧
        after.output.written = cfg.output.written ++ lines ∧
        (if cfg.level ≤ s.level then lines.length = 1 else after = cfg) := by
  obtain ⟨h1, h2, h3, h4⟩ := SetLevelStr_frame cfg name
  have h0 : SetLevelStr cfg name = SetLevel cfg (SetLevelStr cfg name).level := by
    unfold SetLevelStr
    simp only []
    split_ifs <;> rfl
  refine ⟨⟨rfl, rfl, rfl, rfl, rfl⟩,
    ⟨SetLevelStr_level cfg name,
      h0.trans (congrArg (SetLevel cfg) (SetLevelStr_level cfg name)), h1, h2, h3, h4⟩,
    ⟨rfl, rfl, rfl, rfl, rfl⟩,
    ⟨rfl, rfl, rfl, rfl, rfl⟩, ⟨rfl, rfl, rfl, rfl, rfl⟩, ⟨rfl, rfl, rfl, rfl, rfl⟩, ?_⟩
  · obtain ⟨loc, h⟩ := invoke_eq env callers
    by_cases hg : cfg.level ≤ s.level
    · obtain ⟨m, hm⟩ : ∃ m : Message, m = ⟨levelStoreAt s.level, env.now, loc, env.goid,
          match args with
          | .values v => joinWithSpace (v.map display)
          | .formatted f v => Sprintf env f v⟩ := ⟨_, rfl⟩
      refine ⟨writeLog env cfg m, [m.String env cfg], ?_, ?_⟩
      · rw [h, if_pos hg, hm]
      · rw [if_pos hg]
        exact ⟨rfl, rfl, rfl, rfl, rfl, rfl, rfl⟩
    · refine ⟨cfg, [], ?_, ?_⟩
      · rw [h, if_neg hg]
      · rw [if_neg hg]
        exact ⟨rfl, rfl, rfl, rfl, rfl, by simp, rfl⟩

/-- C18: the level constants are 3, 4, 5, 6, 7, 8 in the order DEBUG, INFO,
WARN, ERROR, FATAL, OFF, and the zero `Level` lies below DEBUG; after `SetLevel`
with 0, 1 or 2 every entry point writes its line, and after `SetLevel` with a
value above 8 every entry point returns without writing, as after OFF. -/
theorem C18_level_values (env : Env) (callers : List Frame) (cfg : Config) (s : Severity)
    (args : Args) (low high : Level) (hlow : low.val ≤ 2) (hhigh : 8 < high.val) :
    (DEBUG.val = 3 ∧ INFO.val = 4 ∧ WARN.val = 5 ∧ ERROR.val = 6 ∧ FATAL.val = 7 ∧
        OFF.val = 8) ∧
      (DEBUG < INFO ∧ INFO < WARN ∧ WARN < ERROR ∧ ERROR < FATAL ∧ FATAL < OFF) ∧
      ((0 : Level) ≠ DEBUG ∧ (0 : Level) < DEBUG) ∧
      (∃ m : Message, m.label = levelStoreAt s.level ∧
        invoke s args env callers (SetLevel cfg low) =
          some { SetLevel cfg low with output := { cfg.output with
            written := cfg.output.written ++ [m.String env (SetLevel cfg low)] } }) ∧
      invoke s args env callers (SetLevel cfg high) = some (SetLevel cfg high) ∧
      invoke s args env callers (SetLevel cfg OFF) = some (SetLevel cfg OFF) := by
  obtain ⟨loc, h⟩ := invoke_eq env callers
  have hs : 3 ≤ s.level.val ∧ s.level.val ≤ 7 := by cases s <;> decide
  refine ⟨by decide, by decide, by decide, ?_, ?_, ?_⟩
  · refine ⟨⟨levelStoreAt s.level, env.now, loc, env.goid, match args with
        | .values v => joinWithSpace (v.map display)
        | .formatted f v => Sprintf env f v⟩, rfl, ?_⟩
    have hg : (SetLevel cfg low).level ≤ s.level := by
      show low ≤ s.level
      rw [Fin.le_def]
      omega
    rw [h, if_pos hg, writeLog_eq]
    rfl
  · have hg : ¬ (SetLevel cfg high).level ≤ s.level := by
      show ¬ high ≤ s.level
      rw [Fin.le_def]
      omega
    rw [h, if_neg hg]
  · rw [h]
    exact if_neg (OFF_not_le s)

/-- C18 at the zero level and at level 9, for `Debug` on the initial
configuration. -/
theorem C18_level_values_witness :
    (0 : Level).val ≤ 2 ∧ 8 < (9 : Level).val ∧
      (∃ m : Message, m.label = levelStoreAt DEBUG ∧
        invoke .debug (.values [.str "x".toList]) sampleEnv [] (SetLevel config 0) =
          some { SetLevel config 0 with output := { config.output with
            written := config.output.written ++ [m.String sampleEnv (SetLevel config 0)] } }) ∧
      invoke .debug (.values [.str "x".toList]) sampleEnv [] (SetLevel config 9) =
        some (SetLevel config 9) :=
  have h := C18_level_values sampleEnv [] config .debug (.values [.str "x".toList]) 0 9
    (by decide) (by decide)
  ⟨by decide, by decide, h.2.2.2.1, h.2.2.2.2.1⟩

/-- C19: on a stack text that begins with `goroutine `, the decimal digits of
an `n` below 2^64 and a space, `getGoroutineId` returns `n`: the header is at
most 31 bytes long, so it lies within the 64 bytes that are read, the first
space after the prefix is found, and its index, the slice bound, is the number
of digits. -/
theorem C19_goroutine_id (n : Nat) (rest : GoString) (hn : n < 2 ^ 64) :
    getGoroutineId ("goroutine ".toList ++ fmtDecimal n ++ " ".toList ++ rest) = some n ∧
      ("goroutine ".toList ++ fmtDecimal n ++ " ".toList).length ≤ 31 ∧
      ("goroutine ".toList ++ fmtDecimal n ++ " ".toList) <+:
        ("goroutine ".toList ++ fmtDecimal n ++ " ".toList ++ rest).take 64 ∧
      IndexByte
          (TrimPrefix (("goroutine ".toList ++ fmtDecimal n ++ " ".toList ++ rest).take 64)
            "goroutine ".toList) ' ' = ((fmtDecimal n).length : Int) ∧
      (0 : Int) ≤ ((fmtDecimal n).length : Int) := by
  have hlen := fmtDecimal_length n hn
  have hdig := fmtDecimal_isDigit n
  have hns : ' ' ∉ fmtDecimal n := fun hm => space_not_digit _ (hdig _ hm) rfl
  have h10 : ("goroutine ".toList).length = 10 := by decide
  have hlen31 : ("goroutine ".toList ++ fmtDecimal n ++ " ".toList).length ≤ 31 := by
    simp only [List.length_append, h10]
    have : (" ".toList).length = 1 := by decide
    omega
  refine ⟨?_, hlen31, ?_, ?_, Int.natCast_nonneg _⟩
  · have h := getGoroutineId_header (fmtDecimal n) rest hdig hlen
    rw [ParseUint_fmtDecimal n hn] at h
    have e : "goroutine ".toList ++ fmtDecimal n ++ " ".toList ++ rest =
        "goroutine ".toList ++ fmtDecimal n ++ ' ' :: rest := by simp
    rw [e]
    exact h
  · rw [List.take_append_eq_append_take, List.take_of_length_le (by omega)]
    exact List.prefix_append _ _
  · have htake : List.take 64 ("goroutine ".toList ++ fmtDecimal n ++ " ".toList ++ rest) =
        "goroutine ".toList ++ (fmtDecimal n ++ ' ' ::
          List.take (53 - (fmtDecimal n).length) rest) := by
      rw [List.take_append_eq_append_take, List.take_of_length_le (by omega)]
      have h3 : 64 - ("goroutine ".toList ++ fmtDecimal n ++ " ".toList).length =
          53 - (fmtDecimal n).length := by
        simp only [List.length_append, h10]
        have : (" ".toList).length = 1 := by decide
        omega
      rw [h3]
      simp
    rw [htake]
    unfold TrimPrefix
    rw [if_pos (by simp), List.drop_left]
    unfold IndexByte
    rw [if_pos (by simp), List.indexOf_append_of_not_mem hns, List.indexOf_cons_self]
    simp

/-- C19 at goroutine 18 and the header the runtime prints for it. -/
theorem C19_goroutine_id_witness :
    (18 : Nat) < 2 ^ 64 ∧
      getGoroutineId ("goroutine ".toList ++ fmtDecimal 18 ++ " ".toList ++
        "[running]:\n".toList) = some 18 :=
  ⟨by decide, (C19_goroutine_id 18 "[running]:\n".toList (by decide)).1⟩

/-! ## Counting arbitrary markers -/

theorem countScan_drop (N u rest : GoString) :
    countScan N (u ++ rest) u.length = countScan N rest 0 := by
  induction u with
  | nil => rfl
  | cons c u ih => simpa [countScan] using ih

theorem countScan_hit (N rest : GoString) (hN : N ≠ []) :
    countScan N (N ++ rest) 0 = countScan N rest 0 + 1 := by
  cases N with
  | nil => exact absurd rfl hN
  | cons a N' =>
    have hp : (a :: N').isPrefixOf (a :: (N' ++ rest)) = true := by
      rw [List.isPrefixOf_iff_prefix]
      exact List.prefix_append (a :: N') rest
    rw [List.cons_append, countScan, if_pos hp]
    have hl : (a :: N').length - 1 = N'.length := by simp
    rw [hl, countScan_drop]

theorem countScan_skip_infix (N M : GoString) (hM : M <+: N) (rest : GoString)
    (hrest : ∀ c0 rest', rest = c0 :: rest' → c0 ∉ M.tail) :
    ∀ seg : GoString, ¬ M <:+: seg → countScan N (seg ++ rest) 0 = countScan N rest 0 := by
  intro seg
  induction seg with
  | nil => intro _; rfl
  | cons c seg ih =>
    intro hseg
    have hseg' : ¬ M <:+: seg := fun h => hseg (h.trans (List.infix_cons (List.infix_refl seg)))
    have h0 : N.isPrefixOf (c :: (seg ++ rest)) = false := by
      by_contra hne
      have hp : N <+: (c :: seg) ++ rest := by
        rw [← List.isPrefixOf_iff_prefix]
        simpa using hne
      have hMp : M <+: (c :: seg) ++ rest := hM.trans hp
      have hsp : (c :: seg) <+: (c :: seg) ++ rest := List.prefix_append _ _
      by_cases hlen : M.length ≤ (c :: seg).length
      · exact hseg (List.prefix_of_prefix_length_le hMp hsp hlen).isInfix
      · have hsm : (c :: seg) <+: M :=
          List.prefix_of_prefix_length_le hsp hMp (by omega)
        obtain ⟨u, hu⟩ := hsm
        obtain ⟨w, hw⟩ := hMp
        cases u with
        | nil =>
          rw [List.append_nil] at hu
          rw [← hu] at hlen
          exact hlen (le_refl _)
        | cons u0 u =>
          have hr : rest = u0 :: (u ++ w) := by
            rw [← hu, List.append_assoc] at hw
            have := List.append_cancel_left hw
            simpa using this.symm
          apply hrest u0 (u ++ w) hr
          rw [← hu]
          simp
    rw [List.cons_append, countScan, if_neg (by simp [h0])]
    exact ih hseg'

theorem countScan_skip_first (N : GoString) (a : Char) (N' : GoString) (hN : N = a :: N')
    (seg : GoString) (ha : a ∉ seg) (rest : GoString) :
    countScan N (seg ++ rest) 0 = countScan N rest 0 := by
  apply countScan_skip_infix N [a] (by rw [hN]; exact ⟨N', rfl⟩) rest (by simp) seg
  intro h
  exact ha (List.singleton_sublist.1 h.sublist)

theorem not_infix_of_mem (N seg : GoString) (c : Char) (hc : c ∈ N) (hs : c ∉ seg) :
    ¬ N <:+: seg := fun h => hs (h.subset hc)

/-! ## The timestamp in the flat line -/

theorem testLine_spaced (e : Env) (cfg : Config) (b : Severity) (line : Nat) (msg : GoString)
    (hf : cfg.logFormat = FLAT) (hd : cfg.delimiter = " ".toList) :
    (testMessage e b line msg).String e cfg =
      labelField (levelStoreAt b.level) ++
        (spaced (e.Format cfg.timeFormat e.now) ++
          (restOfLine line e.goid msg ++ "\x1b[0m\n".toList)) := by
  rw [String_FLAT e cfg _ hf, hd]
  simp [testMessage, spaced, restOfLine, labelField]

theorem testLines_fatal (cfg : Config) (env : Nat → Env) (msg : GoString)
    (hl : cfg.level = FATAL) :
    testLines cfg env msg =
      [ (testMessage (env 4) .fatal 20 msg).String (env 4) cfg,
        (testMessage (env 9) .fatal 25 msg).String (env 9) cfg ] := by
  simp [testLines, logged, hl, Severity.level, DEBUG, INFO, WARN, ERROR, FATAL]

theorem countScan_spaced_fatal (e : Env) (cfg : Config) (line : Nat) (msg T rest : GoString)
    (hf : cfg.logFormat = FLAT) (hd : cfg.delimiter = " ".toList)
    (hT : e.Format cfg.timeFormat e.now = T) (hesc : '\x1b' ∉ T)
    (hrest : ¬ spaced T <:+: restOfLine line e.goid msg) :
    countScan (spaced T) ((testMessage e .fatal line msg).String e cfg ++ rest) 0 =
      countScan (spaced T) rest 0 + 1 := by
  have hN : spaced T = ' ' :: (T ++ [' ']) := rfl
  have hne : spaced T ≠ [] := by rw [hN]; simp
  rw [testLine_spaced e cfg .fatal line msg hf hd, hT]
  simp only [List.append_assoc]
  rw [countScan_skip_first (spaced T) ' ' _ hN (labelField (levelStoreAt Severity.fatal.level))
      (by decide), countScan_hit _ _ hne,
    countScan_skip_infix (spaced T) (spaced T) (List.prefix_refl _) _ ?_ _ hrest,
    countScan_skip_first (spaced T) ' ' _ hN _ (by decide)]
  intro c0 rest' hr
  have hc : c0 = '\x1b' := by
    have h := congrArg List.head? hr
    simpa using h.symm
  rw [hc, hN]
  simp [hesc]

set_option maxRecDepth 100000 in
/-- C13 as stated fails: with the layout `goroutine:5 -->` printed at second 18
by goroutine 18, none of the other fields of a FATAL line (label, location,
goroutine tag, text) contains the timestamp, alone or between spaces, and yet
the timestamp between spaces occurs four times in the output, twice in each
line: once at its place and once across the goroutine tag and the start of the
text. -/
theorem C13_counterexample :
    (∀ field ∈ ["\x1b[35m[FATAL]".toList, "logger_test.go:20".toList,
        "logger_test.go:25".toList, "goroutine:18".toList, "--> test format".toList],
      ¬ "goroutine:18 -->".toList <:+: field ∧ ¬ spaced "goroutine:18 -->".toList <:+: field) ∧
      (printAllLevels (fun _ => clashEnv) []
        (SetTimeFormat (SetLevel config FATAL) "goroutine:5 -->".toList)
        "test format".toList).map
          (fun c => Count c.output.content (spaced "goroutine:18 -->".toList)) = some 4 := by
  exact ⟨by decide, rfl⟩

/-- C13 (amended): the time of a message is the clock reading taken when it is
assembled, and the flat line shows it formatted with the time format in force
when the line is rendered; so after `SetTimeFormat(p)`, at minimum level FATAL
with the flat template and the default delimiter, the ten calls of
`printAllLevels` made at a moment that `p` prints as `T` add two lines in which
`T` between two spaces occurs exactly twice, provided `T` has no escape
character and, between two spaces, does not occur in the rest of either line
(location, goroutine tag and text as they stand in the line). -/
theorem C13_timestamp (env : Nat → Env) (outer : List Frame) (cfg : Config)
    (msg p T : GoString) (e : Env) (entry : Frame) (callers : List Frame) (level : Level)
    (v : List Value) (m : Message)
    (hl : cfg.level = FATAL) (hf : cfg.logFormat = FLAT) (hd : cfg.delimiter = " ".toList)
    (hT : ∀ k, (env k).Format p (env k).now = T) (hesc : '\x1b' ∉ T)
    (h4 : ¬ spaced T <:+: restOfLine 20 (env 4).goid msg)
    (h9 : ¬ spaced T <:+: restOfLine 25 (env 9).goid msg) :
    (newMessage e (entry :: callers) level v).map Message.time = some e.now ∧
      m.String e (SetTimeFormat cfg p) =
        m.label.color ++ "[".toList ++ m.label.name ++ "] ".toList ++ e.Format p m.time ++
          " ".toList ++ m.location ++ " goroutine:".toList ++ fmtDecimal m.goroutineId ++
          " ".toList ++ m.text ++ "\x1b[0m\n".toList ∧
      ∃ lines : List GoString,
        printAllLevels env outer (SetTimeFormat cfg p) msg =
          some { SetTimeFormat cfg p with output :=
            { cfg.output with written := cfg.output.written ++ lines } } ∧
        lines.length = 2 ∧ Count lines.flatten (spaced T) = 2 := by
  refine ⟨?_, String_FLAT_default e (SetTimeFormat cfg p) m hf hd, ?_⟩
  · obtain ⟨loc, h⟩ := newMessage_any e callers
    rw [h]
    rfl
  · refine ⟨testLines (SetTimeFormat cfg p) env msg, printAllLevels_eq env outer _ msg, ?_⟩
    rw [testLines_fatal (SetTimeFormat cfg p) env msg hl]
    refine ⟨rfl, ?_⟩
    have hne : spaced T ≠ [] := by
      have hN : spaced T = ' ' :: (T ++ [' ']) := rfl
      rw [hN]; simp
    unfold Count
    rw [if_neg hne]
    simp only [List.flatten_cons, List.flatten_nil]
    rw [countScan_spaced_fatal (env 4) (SetTimeFormat cfg p) 20 msg T _ hf hd (hT 4) hesc h4,
      countScan_spaced_fatal (env 9) (SetTimeFormat cfg p) 25 msg T _ hf hd (hT 9) hesc h9]
    rfl

/-- The amended C13 at the layout `15:04` of `TestSetFormat`, which the sample
clock prints as `15:04`. -/
theorem C13_timestamp_witness :
    ∃ lines : List GoString,
      printAllLevels (fun _ => sampleEnv) []
          (SetTimeFormat (SetLevelStr config "FATAL".toList) "15:04".toList)
          "test format".toList =
        some { SetTimeFormat (SetLevelStr config "FATAL".toList) "15:04".toList with output :=
          { (SetLevelStr config "FATAL".toList).output with
            written := (SetLevelStr config "FATAL".toList).output.written ++ lines } } ∧
      lines.length = 2 ∧ Count lines.flatten (spaced "15:04".toList) = 2 :=
  (C13_timestamp (fun _ => sampleEnv) [] (SetLevelStr config "FATAL".toList)
    "test format".toList "15:04".toList "15:04".toList sampleEnv
    { file := [], line := 0 } [] FATAL [] sampleMessage rfl rfl rfl (fun _ => rfl)
    (by decide) (by decide) (by decide)).2.2

/-! ## The markers of `TestFlatFormat` -/

theorem clockLike_not_mem (T : GoString) (hT : clockLike T) (c : Char)
    (hc : isDigit c = false ∧ c ≠ ':' ∧ c ≠ '.') : c ∉ T := by
  intro hm
  rcases hT c hm with h | h | h
  · rw [hc.1] at h; exact absurd h (by decide)
  · exact hc.2.1 h
  · exact hc.2.2 h

theorem not_mem_fmtDecimal (u : Nat) (c : Char) (hc : isDigit c = false) : c ∉ fmtDecimal u := by
  intro hm
  rw [fmtDecimal_isDigit u c hm] at hc
  exact absurd hc (by decide)

theorem not_infix_pair (a b c : Char) (T : GoString) (hb : b ∉ T) : ¬ [a, b] <:+: c :: T := by
  intro h
  rcases List.infix_cons_iff.1 h with hp | hi
  · obtain ⟨w, hw⟩ := hp
    have : T = b :: w := by
      simp only [List.cons_append, List.nil_append, List.cons.injEq] at hw
      exact hw.2.symm
    exact hb (by rw [this]; simp)
  · exact hb (hi.subset (by simp))

theorem testLine_parts (e : Env) (cfg : Config) (b : Severity) (line : Nat) (msg : GoString)
    (hf : cfg.logFormat = FLAT) (hd : cfg.delimiter = " ".toList) :
    (testMessage e b line msg).String e cfg =
      labelField (levelStoreAt b.level) ++ (' ' :: (e.Format cfg.timeFormat e.now ++
        (" logger_test.go:".toList ++ (fmtDecimal line ++ (" goroutine:".toList ++
        (fmtDecimal e.goid ++ ((" --> ".toList ++ msg) ++ "\x1b[0m\n".toList))))))) := by
  rw [String_FLAT e cfg _ hf, hd]
  simp [testMessage, labelField]

theorem testLines_debug (cfg : Config) (env : Nat → Env) (msg : GoString)
    (hl : cfg.level = DEBUG) :
    testLines cfg env msg =
      [ (testMessage (env 0) .debug 16 msg).String (env 0) cfg,
        (testMessage (env 1) .info 17 msg).String (env 1) cfg,
        (testMessage (env 2) .warn 18 msg).String (env 2) cfg,
        (testMessage (env 3) .error 19 msg).String (env 3) cfg,
        (testMessage (env 4) .fatal 20 msg).String (env 4) cfg,
        (testMessage (env 5) .debug 21 msg).String (env 5) cfg,
        (testMessage (env 6) .info 22 msg).String (env 6) cfg,
        (testMessage (env 7) .warn 23 msg).String (env 7) cfg,
        (testMessage (env 8) .error 24 msg).String (env 8) cfg,
        (testMessage (env 9) .fatal 25 msg).String (env 9) cfg ] := by
  simp [testLines, logged, hl, Severity.level, DEBUG, INFO, WARN, ERROR, FATAL]

theorem countScan_bracket_head (b : Severity) (rest : GoString) :
    countScan "[DEBUG] ".toList (labelField (levelStoreAt b.level) ++ ' ' :: rest) 0 =
      countScan "[DEBUG] ".toList rest 0 + (if b = .debug then 1 else 0) := by
  cases b <;> first | rfl | (cases rest <;> rfl)

theorem countScan_bracket_reset (rest : GoString) :
    countScan "[DEBUG] ".toList ("\x1b[0m\n".toList ++ rest) 0 =
      countScan "[DEBUG] ".toList rest 0 := rfl

theorem countScan_bracket_line (b : Severity) (e : Env) (cfg : Config) (line : Nat)
    (msg rest : GoString) (hf : cfg.logFormat = FLAT) (hd : cfg.delimiter = " ".toList)
    (hT : clockLike (e.Format cfg.timeFormat e.now))
    (hm : ¬ "[DEBUG] ".toList <:+: " --> ".toList ++ msg) :
    countScan "[DEBUG] ".toList ((testMessage e b line msg).String e cfg ++ rest) 0 =
      countScan "[DEBUG] ".toList rest 0 + (if b = .debug then 1 else 0) := by
  have hN : "[DEBUG] ".toList = '[' :: "DEBUG] ".toList := rfl
  rw [testLine_parts e cfg b line msg hf hd]
  simp only [List.append_assoc, List.cons_append]
  rw [countScan_bracket_head,
    countScan_skip_first _ '[' _ hN _ (clockLike_not_mem _ hT _ (by decide)),
    countScan_skip_first _ '[' _ hN " logger_test.go:".toList (by decide),
    countScan_skip_first _ '[' _ hN _ (not_mem_fmtDecimal _ _ (by decide)),
    countScan_skip_first _ '[' _ hN " goroutine:".toList (by decide),
    countScan_skip_first _ '[' _ hN _ (not_mem_fmtDecimal _ _ (by decide))]
  rw [← List.append_assoc " --> ".toList msg,
    countScan_skip_infix _ _ (List.prefix_refl _) _ ?_ _ hm, countScan_bracket_reset]
  intro c0 rest' hr
  have hc : c0 = '\x1b' := by
    have h := congrArg List.head? hr
    simpa using h.symm
  rw [hc]
  decide

theorem head_escape (c0 : Char) (rest' tail : GoString)
    (hr : "\x1b[0m\n".toList ++ tail = c0 :: rest') : c0 = '\x1b' := by
  have h := congrArg List.head? hr
  simpa using h.symm

theorem countScan_file_line (b : Severity) (e : Env) (cfg : Config) (line : Nat)
    (msg rest : GoString) (hf : cfg.logFormat = FLAT) (hd : cfg.delimiter = " ".toList)
    (hT : clockLike (e.Format cfg.timeFormat e.now))
    (hm : ¬ " logger_test.go:".toList <:+: " --> ".toList ++ msg) :
    countScan " logger_test.go:".toList ((testMessage e b line msg).String e cfg ++ rest) 0 =
      countScan " logger_test.go:".toList rest 0 + 1 := by
  have hN : " logger_test.go:".toList = ' ' :: "logger_test.go:".toList := rfl
  have hhead : ∀ r : GoString, countScan " logger_test.go:".toList
      (labelField (levelStoreAt b.level) ++ r) 0 = countScan " logger_test.go:".toList r 0 := by
    intro r
    cases b <;> rfl
  have htag : ∀ r : GoString, countScan " logger_test.go:".toList
      (" goroutine:".toList ++ r) 0 = countScan " logger_test.go:".toList r 0 := fun r => rfl
  have hstamp : ∀ r : GoString, countScan " logger_test.go:".toList
      (' ' :: (e.Format cfg.timeFormat e.now ++ (" logger_test.go:".toList ++ r))) 0 =
        countScan " logger_test.go:".toList (" logger_test.go:".toList ++ r) 0 := by
    intro r
    rw [← List.cons_append]
    apply countScan_skip_infix _ [' ', 'l'] ⟨"ogger_test.go:".toList, rfl⟩ _ ?_ _
      (not_infix_pair _ _ _ _ (clockLike_not_mem _ hT _ (by decide)))
    intro c0 rest' hr
    have hc : c0 = ' ' := by
      have h := congrArg List.head? hr
      simpa using h.symm
    rw [hc]
    decide
  rw [testLine_parts e cfg b line msg hf hd]
  simp only [List.append_assoc, List.cons_append]
  rw [hhead, hstamp, countScan_hit _ _ (by decide),
    countScan_skip_first _ ' ' _ hN _ (not_mem_fmtDecimal _ _ (by decide)), htag,
    countScan_skip_first _ ' ' _ hN _ (not_mem_fmtDecimal _ _ (by decide))]
  rw [← List.append_assoc " --> ".toList msg,
    countScan_skip_infix _ _ (List.prefix_refl _) _ ?_ _ hm,
    countScan_skip_first _ ' ' _ hN "\x1b[0m\n".toList (by decide)]
  intro c0 rest' hr
  rw [head_escape c0 rest' _ hr]
  decide

theorem countScan_tag_line (b : Severity) (e : Env) (cfg : Config) (line : Nat)
    (msg rest : GoString) (hf : cfg.logFormat = FLAT) (hd : cfg.delimiter = " ".toList)
    (hT : clockLike (e.Format cfg.timeFormat e.now))
    (hm : ¬ " goroutine:".toList <:+: " --> ".toList ++ msg) :
    countScan " goroutine:".toList ((testMessage e b line msg).String e cfg ++ rest) 0 =
      countScan " goroutine:".toList rest 0 + 1 := by
  have hN : " goroutine:".toList = ' ' :: "goroutine:".toList := rfl
  have hhead : ∀ r : GoString, countScan " goroutine:".toList
      (labelField (levelStoreAt b.level) ++ r) 0 = countScan " goroutine:".toList r 0 := by
    intro r
    cases b <;> rfl
  have hfile : ∀ r : GoString, countScan " goroutine:".toList
      (" logger_test.go:".toList ++ r) 0 = countScan " goroutine:".toList r 0 := fun r => rfl
  have hstamp : ∀ r : GoString, countScan " goroutine:".toList
      (' ' :: (e.Format cfg.timeFormat e.now ++ (" logger_test.go:".toList ++ r))) 0 =
        countScan " goroutine:".toList (" logger_test.go:".toList ++ r) 0 := by
    intro r
    rw [← List.cons_append]
    apply countScan_skip_infix _ [' ', 'g'] ⟨"oroutine:".toList, rfl⟩ _ ?_ _
      (not_infix_pair _ _ _ _ (clockLike_not_mem _ hT _ (by decide)))
    intro c0 rest' hr
    have hc : c0 = ' ' := by
      have h := congrArg List.head? hr
      simpa using h.symm
    rw [hc]
    decide
  rw [testLine_parts e cfg b line msg hf hd]
  simp only [List.append_assoc, List.cons_append]
  rw [hhead, hstamp, hfile,
    countScan_skip_first _ ' ' _ hN _ (not_mem_fmtDecimal _ _ (by decide)),
    countScan_hit _ _ (by decide),
    countScan_skip_first _ ' ' _ hN _ (not_mem_fmtDecimal _ _ (by decide))]
  rw [← List.append_assoc " --> ".toList msg,
    countScan_skip_infix _ _ (List.prefix_refl _) _ ?_ _ hm,
    countScan_skip_first _ ' ' _ hN "\x1b[0m\n".toList (by decide)]
  intro c0 rest' hr
  rw [head_escape c0 rest' _ hr]
  decide

theorem countScan_text_line (b : Severity) (e : Env) (cfg : Config) (line : Nat)
    (msg rest : GoString) (hf : cfg.logFormat = FLAT) (hd : cfg.delimiter = " ".toList)
    (hT : clockLike (e.Format cfg.timeFormat e.now)) :
    countScan (" --> ".toList ++ msg) ((testMessage e b line msg).String e cfg ++ rest) 0 =
      countScan (" --> ".toList ++ msg) rest 0 + 1 := by
  have hN : " --> ".toList ++ msg = ' ' :: ("--> ".toList ++ msg) := rfl
  have hhead : ∀ r : GoString, countScan (" --> ".toList ++ msg)
      (labelField (levelStoreAt b.level) ++ r) 0 = countScan (" --> ".toList ++ msg) r 0 := by
    intro r
    cases b <;> rfl
  have hfile : ∀ r : GoString, countScan (" --> ".toList ++ msg)
      (" logger_test.go:".toList ++ r) 0 = countScan (" --> ".toList ++ msg) r 0 := fun r => rfl
  have htag : ∀ r : GoString, countScan (" --> ".toList ++ msg)
      (" goroutine:".toList ++ r) 0 = countScan (" --> ".toList ++ msg) r 0 := fun r => rfl
  have hstamp : ∀ r : GoString, countScan (" --> ".toList ++ msg)
      (' ' :: (e.Format cfg.timeFormat e.now ++ (" logger_test.go:".toList ++ r))) 0 =
        countScan (" --> ".toList ++ msg) (" logger_test.go:".toList ++ r) 0 := by
    intro r
    rw [← List.cons_append]
    apply countScan_skip_infix _ [' ', '-'] ⟨"-> ".toList ++ msg, rfl⟩ _ ?_ _
      (not_infix_pair _ _ _ _ (clockLike_not_mem _ hT _ (by decide)))
    intro c0 rest' hr
    have hc : c0 = ' ' := by
      have h := congrArg List.head? hr
      simpa using h.symm
    rw [hc]
    decide
  rw [testLine_parts e cfg b line msg hf hd]
  simp only [List.append_assoc, List.cons_append]
  rw [hhead, hstamp, hfile,
    countScan_skip_first _ ' ' _ hN _ (not_mem_fmtDecimal _ _ (by decide)), htag,
    countScan_skip_first _ ' ' _ hN _ (not_mem_fmtDecimal _ _ (by decide))]
  rw [← List.append_assoc " --> ".toList msg, countScan_hit _ _ (by rw [hN]; simp),
    countScan_skip_first _ ' ' _ hN "\x1b[0m\n".toList (by decide)]

end Logger
